import Mathlib

/-!
# URL shortener front end: the interaction controller of `static/script.js`

A shallow embedding of the class `URLShortener` (form submission, result, error and
statistics regions) together with the properties stated for it.

Modelling conventions.

* The page is a record of the attributes the handlers read or write: the `hidden` class of
  each region, text contents, the value of the two inputs, the state of the submit button.
* An `async` handler runs until its next `await` and is then suspended: it is kept in the list
  `pending` until the awaited promise settles (`resume`).  Between two such steps anything
  else may happen: other handlers start or resume, time passes and timers fire (`step`, `run`).
* `handleSubmit` and `showStats` are also given as one function of the network outcome: the
  run of the handler in which only timers fire while it waits (`handleSubmit_eq_run`,
  `showStats_eq_run`).
* `fetch` is recorded in a request log by its arguments; what the browser does with the URL
  and with the JSON text on the wire is below the model.
* JavaScript values are those `response.json()` can produce, plus `undefined`.  Floating
  point is outside the embedding: a number is given by its rendering as a string, from which
  its truth value follows.
-/

namespace UrlShortener

/-! ## JavaScript values -/

/-- Values read from a parsed response body.  A number is given by the string the language
renders it to (`0` for both zeros, `NaN`, `1e+21`, `0.5`, …). -/
inductive JSVal where
  | undefined
  | null
  | bool (b : Bool)
  | num (rendering : String)
  | str (s : String)
  | arr (items : List JSVal)
  | obj (props : List (String × JSVal))

/-- ToBoolean. -/
def truthy : JSVal → Bool
  | .undefined => false
  | .null => false
  | .bool b => b
  | .num rendering => rendering != "0" && rendering != "NaN"
  | .str s => s != ""
  | .arr _ => true
  | .obj _ => true

/-- The operator `a || b`. -/
def jsOr (a b : JSVal) : JSVal := if truthy a then a else b

/-- Own property of a parsed object; the last occurrence of a key is the one kept by the parser. -/
def lookupLast (k : String) : List (String × JSVal) → Option JSVal
  | [] => none
  | (k1, v) :: rest =>
    match lookupLast k rest with
    | some w => some w
    | none => if k1 = k then some v else none

/-- Property read `v.k` for one of the keys used by the script (`short_url`, `error`,
`click_count`, `created_at`, none of which is inherited).  `none` is the `TypeError` raised on
`null` and `undefined`. -/
def getProp (v : JSVal) (k : String) : Option JSVal :=
  match v with
  | .undefined => none
  | .null => none
  | .obj props => some ((lookupLast k props).getD .undefined)
  | _ => some .undefined

mutual
/-- ToString.  `none` is the `TypeError` of an object whose own `toString` property (never
callable in parsed JSON) shadows the inherited one. -/
def jsToString : JSVal → Option String
  | .undefined => some "undefined"
  | .null => some "null"
  | .bool true => some "true"
  | .bool false => some "false"
  | .num rendering => some rendering
  | .str s => some s
  | .arr items => jsJoin items
  | .obj props => if props.any (fun p => p.1 == "toString") then none else some "[object Object]"
/-- The method `join` of arrays with the default separator. -/
def jsJoin : List JSVal → Option String
  | [] => some ""
  | [x] => jsItem x
  | x :: y :: rest =>
    match jsItem x, jsJoin (y :: rest) with
    | some a, some b => some (a ++ "," ++ b)
    | _, _ => none
/-- One array element inside `join`: `undefined` and `null` are rendered empty. -/
def jsItem : JSVal → Option String
  | .undefined => some ""
  | .null => some ""
  | .bool true => some "true"
  | .bool false => some "false"
  | .num rendering => some rendering
  | .str s => some s
  | .arr items => jsJoin items
  | .obj props => if props.any (fun p => p.1 == "toString") then none else some "[object Object]"
end

/-- Conversion done by the setter of `textContent` (a nullable string attribute). -/
def toTextContent : JSVal → Option String
  | .undefined => some ""
  | .null => some ""
  | v => jsToString v

/-- Conversion of the argument of the setter of `value` (`null` becomes empty). -/
def toInputValue : JSVal → Option String
  | .null => some ""
  | v => jsToString v

/-- The elements that hold text and have the method `select`.  The markup, which is not among
the sources, fixes the kind of the field `shortUrl`. -/
inductive FieldKind where
  | text
  | url
  | textarea
  deriving DecidableEq

/-- Line breaks are removed: the value sanitization of an input of type `text`, `search`, `tel`
or `password`. -/
def stripNewlines (l : List Char) : List Char :=
  l.filter (fun c => !(c == '\n' || c == '\r'))

/-- ASCII white space: tab, line feed, form feed, carriage return, space. -/
def isAsciiWhitespace (c : Char) : Bool :=
  c == '\t' || c == '\n' || c == '\x0c' || c == '\r' || c == ' '

/-- Leading and trailing ASCII white space is removed. -/
def stripAsciiWhitespace (l : List Char) : List Char :=
  ((l.dropWhile isAsciiWhitespace).reverse.dropWhile isAsciiWhitespace).reverse

/-- Every pair carriage return, line feed and every other carriage return becomes a line feed:
the value a `textarea` reports. -/
def normalizeNewlines : List Char → List Char
  | [] => []
  | '\r' :: '\n' :: rest => '\n' :: normalizeNewlines rest
  | '\r' :: rest => '\n' :: normalizeNewlines rest
  | c :: rest => c :: normalizeNewlines rest

/-- What the field reports as its `value` after the string `s` has been assigned to it.  Inputs
of type `url` and `email` lose their line breaks, then leading and trailing white space. -/
def sanitize (kind : FieldKind) (s : String) : String :=
  match kind with
  | .text => String.mk (stripNewlines s.data)
  | .url => String.mk (stripAsciiWhitespace (stripNewlines s.data))
  | .textarea => String.mk (normalizeNewlines s.data)

/-! ## Strings -/

/-- White space and line terminators, the characters removed by `String.prototype.trim`. -/
def isJSWhiteSpace (c : Char) : Bool :=
  let n := c.toNat
  n == 0x09 || n == 0x0A || n == 0x0B || n == 0x0C || n == 0x0D || n == 0x20 || n == 0xA0 ||
  n == 0x1680 || (0x2000 ≤ n && n ≤ 0x200A) || n == 0x2028 || n == 0x2029 || n == 0x202F ||
  n == 0x205F || n == 0x3000 || n == 0xFEFF

/-- The method `trim`. -/
def jsTrim (s : String) : String :=
  String.mk ((s.data.dropWhile isJSWhiteSpace).reverse.dropWhile isJSWhiteSpace).reverse

/-- The method `split` with a one-character separator, on character lists. -/
def splitChars (sep : Char) : List Char → List (List Char)
  | [] => [[]]
  | c :: cs =>
    if c = sep then [] :: splitChars sep cs
    else
      match splitChars sep cs with
      | [] => [[c]]
      | seg :: rest => (c :: seg) :: rest

/-- The method `split` with a one-character separator. -/
def jsSplit (s : String) (sep : Char) : List String :=
  (splitChars sep s.data).map String.mk

/-- The method `pop` read for its value alone: the last element, `undefined` on an empty array. -/
def jsPop (xs : List String) : JSVal :=
  match xs.getLast? with
  | some x => .str x
  | none => .undefined

/-- Interpolation of a value in a template literal. -/
def interpolate : JSVal → String
  | .str s => s
  | v => (jsToString v).getD ""

/-! ## The page and the controller -/

/-- A handler suspended on `await`: `handleSubmit` at the call of `fetch` (line 80) or at
`response.json()` (line 88, the response and its `ok` in hand), `showStats` at the call of
`fetch` (line 182) or at `response.json()` (line 185). -/
inductive Task where
  | submitFetch
  | submitBody (ok : Bool)
  | statsFetch
  | statsBody
  deriving DecidableEq

/-- Whether the suspended handler is `showStats`. -/
def Task.isStats : Task → Bool
  | .statsFetch => true
  | .statsBody => true
  | _ => false

/-- Whether the suspended handler is `handleSubmit`. -/
def Task.isSubmit : Task → Bool
  | .submitFetch => true
  | .submitBody _ => true
  | _ => false

/-- Callbacks registered with `setTimeout` by the modelled handlers. -/
inductive TimerAction where
  | hideError
  deriving DecidableEq

/-- A pending timer. -/
structure Timer where
  due : Nat
  action : TimerAction
  deriving DecidableEq

/-- A call of `fetch`. -/
structure Request where
  method : String
  url : String
  headers : List (String × String)
  body : Option JSVal

/-- The controller instance with the attributes of the elements it holds.
A field `…Hidden` tells whether the class list of the element contains `hidden`. -/
structure URLShortener where
  urlInputValue : String
  shortenBtnDisabled : Bool
  shortenBtnHTML : String
  loadingHidden : Bool
  errorHidden : Bool
  errorText : String
  resultHidden : Bool
  shortUrlKind : FieldKind
  shortUrlValue : String
  shortUrlSelected : Bool
  statsHidden : Bool
  clickCountText : String
  createdDateText : String
  currentShortUrl : JSVal
  now : Nat
  timers : List Timer
  requests : List Request
  console : List String
  pending : List Task

/-- How a handler body ends: normally, or with a thrown value (rejected promise). -/
inductive Completion where
  | normal (st : URLShortener)
  | throw (st : URLShortener)

/-- The state a completion leaves. -/
def Completion.state : Completion → URLShortener
  | .normal st => st
  | .throw st => st

/-- Whether the completion is normal. -/
def Completion.isNormal : Completion → Bool
  | .normal _ => true
  | .throw _ => false

/-- A block `try … catch`. -/
def tryCatch (body : Completion) (handler : URLShortener → Completion) : Completion :=
  match body with
  | .normal st => .normal st
  | .throw st => handler st

/-- A block `… finally`. -/
def tryFinally (body : Completion) (cleanup : URLShortener → URLShortener) : Completion :=
  match body with
  | .normal st => .normal (cleanup st)
  | .throw st => .throw (cleanup st)

/-- What the network answers to one `fetch`, with the time each `await` takes.
`body = none` stands for a body `response.json()` fails to read. -/
inductive FetchOutcome where
  | rejected (wait : Nat)
  | response (wait : Nat) (ok : Bool) (bodyWait : Nat) (body : Option JSVal)

/-- How an awaited promise settles: it rejects, `fetch` resolves to a response, or
`response.json()` resolves to the parsed body. -/
inductive Reply where
  | failure
  | response (ok : Bool)
  | body (data : JSVal)

/-- Transport-level failure of a request: `fetch` rejects, or the body cannot be read. -/
def FetchOutcome.transportFailure : FetchOutcome → Bool
  | .rejected _ => true
  | .response _ _ _ none => true
  | .response _ _ _ (some _) => false

/-- A non-success response (`response.ok` is false). -/
def FetchOutcome.nonSuccess : FetchOutcome → Bool
  | .response _ false _ _ => true
  | _ => false

/-- A failed read of the statistics: `fetch` rejects, the response is not a success, or the
body of a success response cannot be read. -/
def FetchOutcome.statsReadFailed : FetchOutcome → Bool
  | .rejected _ => true
  | .response _ false _ _ => true
  | .response _ true _ none => true
  | .response _ true _ (some _) => false

namespace URLShortener

/-- The constructor (lines 2 to 6): the elements are taken from the document as they are, and
the current short URL starts empty.  Registering the listeners and focusing the URL field
change nothing in the modelled state.  No handler is suspended yet. -/
def constructor (document : URLShortener) : URLShortener :=
  { document with currentShortUrl := .str "", pending := [] }

/-- Lines 103 to 107. -/
def showLoading (st : URLShortener) : URLShortener :=
  { st with
    loadingHidden := false
    shortenBtnDisabled := true
    shortenBtnHTML := "<i class=\"fas fa-spinner fa-spin\"></i> Shortening..." }

/-- Lines 109 to 113. -/
def hideLoading (st : URLShortener) : URLShortener :=
  { st with
    loadingHidden := true
    shortenBtnDisabled := false
    shortenBtnHTML := "<i class=\"fas fa-compress-alt\"></i> Shorten" }

/-- Lines 125 to 127. -/
def hideError (st : URLShortener) : URLShortener :=
  { st with errorHidden := true }

/-- The delay of the timer that hides the error, in milliseconds (5 seconds). -/
def errorDelay : Nat := 5000

/-- Lines 115 to 123: the text is set, the region is shown and the timer that hides it is
registered.  The conversion of the message to a string can throw. -/
def showError (message : JSVal) (st : URLShortener) : Completion :=
  match toTextContent message with
  | none => .throw st
  | some text =>
    .normal { st with
      errorText := text
      errorHidden := false
      timers := st.timers ++ [⟨st.now + errorDelay, .hideError⟩] }

/-- Lines 129 to 139.  Reading `short_url` throws on `null`; the assignment to `value`
converts to a string and can throw after the current short URL has been stored; the field then
holds the string as its kind sanitizes it. -/
def showResult (data : JSVal) (st : URLShortener) : Completion :=
  match getProp data "short_url" with
  | none => .throw st
  | some v =>
    let st := { st with currentShortUrl := v }
    match toInputValue v with
    | none => .throw st
    | some text =>
      .normal { st with
        shortUrlValue := sanitize st.shortUrlKind text
        resultHidden := false
        shortUrlSelected := true }

/-- Lines 141 to 143. -/
def hideResult (st : URLShortener) : URLShortener :=
  { st with resultHidden := true }

/-- Lines 145 to 147. -/
def hideStats (st : URLShortener) : URLShortener :=
  { st with statsHidden := true }

/-- The callback of a timer. -/
def runTimer (a : TimerAction) (st : URLShortener) : URLShortener :=
  match a with
  | .hideError => hideError st

/-- Let `dt` milliseconds pass: the timers that fall due fire in the order of their creation. -/
def advance (dt : Nat) (st : URLShortener) : URLShortener :=
  let now := st.now + dt
  (st.timers.filter (fun t => decide (t.due ≤ now))).foldl (fun s t => runTimer t.action s)
    { st with now := now, timers := st.timers.filter (fun t => !decide (t.due ≤ now)) }

/-- The call `fetch(…)`: the request leaves. -/
def fetch (r : Request) (st : URLShortener) : URLShortener :=
  { st with requests := st.requests ++ [r] }

/-- The call `console.error(label, error)`. -/
def consoleError (label : String) (st : URLShortener) : URLShortener :=
  { st with console := st.console ++ [label] }

/-- The request of `handleSubmit`. -/
def shortenRequest (url : String) : Request :=
  { method := "POST"
    url := "/shorten"
    headers := [("Content-Type", "application/json")]
    body := some (.obj [("url", .str url)]) }

/-- Lines 74 to 77 of `handleSubmit`: what runs between the validation and the `try` block. -/
def submitPrologue (st : URLShortener) : URLShortener :=
  hideStats (hideResult (hideError (showLoading st)))

/-- What follows the two `await`s in the `try` block of `handleSubmit` (lines 88 to 94). -/
def submitSettled (ok : Bool) (body : Option JSVal) (st : URLShortener) : Completion :=
  match body with
  | none => .throw st
  | some data =>
    if ok then showResult data st
    else
      match getProp data "error" with
      | none => .throw st
      | some v => showError (jsOr v (.str "An error occurred")) st

/-- The `try` block of `handleSubmit` (lines 79 to 94): the request leaves, then the handler
waits for the response and for its body. -/
def submitTry (url : String) (o : FetchOutcome) (st : URLShortener) : Completion :=
  let st := fetch (shortenRequest url) st
  match o with
  | .rejected wait => .throw (advance wait st)
  | .response wait ok bodyWait body => submitSettled ok body (advance bodyWait (advance wait st))

/-- The `catch` block of `handleSubmit` (lines 95 to 97). -/
def submitCatch (st : URLShortener) : Completion :=
  match showError (.str "Network error. Please try again.") st with
  | .normal st => .normal (consoleError "Error:" st)
  | .throw st => .throw st

/-- Lines 65 to 101 as one function of the outcome `o` of the request: the run of the handler
during which nothing but timers fires.  The promise returned fulfils on `normal` and rejects on
`throw`.  The call `e.preventDefault()` changes nothing in the modelled state. -/
def handleSubmit (o : FetchOutcome) (st : URLShortener) : Completion :=
  let url := jsTrim st.urlInputValue
  if url = "" then
    showError (.str "Please enter a URL") st
  else
    tryFinally (tryCatch (submitTry url o (submitPrologue st)) submitCatch) hideLoading

/-- The request of `showStats`. -/
def statsRequest (shortCode : JSVal) : Request :=
  { method := "GET", url := "/stats/" ++ interpolate shortCode, headers := [], body := none }

/-- The expression `new Date(v).toLocaleDateString()`.  The conversion of `v` to a primitive
throws as `jsToString` does; the rendering of the date depends on the locale and is given by
`localeDate`. -/
def dateText (localeDate : JSVal → String) (v : JSVal) : Option String :=
  match jsToString v with
  | none => none
  | some _ => some (localeDate v)

/-- The success branch of `showStats`, after `response.json()` (lines 185 to 189). -/
def statsSettled (localeDate : JSVal → String) (body : Option JSVal) (st : URLShortener) :
    Completion :=
  match body with
  | none => .throw st
  | some data =>
    match getProp data "click_count" with
    | none => .throw st
    | some count =>
      match toTextContent count with
      | none => .throw st
      | some countText =>
        let st := { st with clickCountText := countText }
        match getProp data "created_at" with
        | none => .throw st
        | some created =>
          match dateText localeDate created with
          | none => .throw st
          | some text => .normal { st with createdDateText := text, statsHidden := false }

/-- The `try` block of `showStats` (lines 179 to 192).  A current short URL that is not a
string has no method `split`, and the call throws before any request. -/
def statsTry (localeDate : JSVal → String) (o : FetchOutcome) (st : URLShortener) : Completion :=
  match st.currentShortUrl with
  | .str s =>
    let shortCode := jsPop (jsSplit s '/')
    let st := fetch (statsRequest shortCode) st
    match o with
    | .rejected wait => .throw (advance wait st)
    | .response wait ok bodyWait body =>
      let st := advance wait st
      if ok then statsSettled localeDate body (advance bodyWait st)
      else showError (.str "Unable to load statistics") st
  | _ => .throw st

/-- The `catch` block of `showStats` (lines 193 to 196). -/
def statsCatch (st : URLShortener) : Completion :=
  match showError (.str "Error loading statistics") st with
  | .normal st => .normal (consoleError "Stats error:" st)
  | .throw st => .throw st

/-- Lines 176 to 197 as one function of the outcome `o` of the request: the run of the handler
during which nothing but timers fires. -/
def showStats (localeDate : JSVal → String) (o : FetchOutcome) (st : URLShortener) : Completion :=
  if !truthy st.currentShortUrl then .normal st
  else tryCatch (statsTry localeDate o st) statsCatch

/-- The call of `handleSubmit` up to its first `await` (lines 66 to 80): a blank input is
refused; otherwise the prologue runs, the request leaves and the handler is suspended. -/
def submitBegin (st : URLShortener) : URLShortener :=
  let url := jsTrim st.urlInputValue
  if url = "" then
    (showError (.str "Please enter a URL") st).state
  else
    let st := fetch (shortenRequest url) (submitPrologue st)
    { st with pending := st.pending ++ [.submitFetch] }

/-- The end of `handleSubmit` once its `try` block has completed: the `catch` block if it
threw, then the `finally` block (lines 95 to 100). -/
def submitEnd (body : Completion) : URLShortener :=
  (tryFinally (tryCatch body submitCatch) hideLoading).state

/-- The call of `showStats` up to its first `await` (lines 177 to 182).  Without a current
short URL it returns; a current short URL without the method `split` sends it to the `catch`
block at once; otherwise the request leaves and the handler is suspended. -/
def statsBegin (st : URLShortener) : URLShortener :=
  if !truthy st.currentShortUrl then st
  else
    match st.currentShortUrl with
    | .str s =>
      let st := fetch (statsRequest (jsPop (jsSplit s '/'))) st
      { st with pending := st.pending ++ [.statsFetch] }
    | _ => (statsCatch st).state

/-- The promise awaited by the suspended handler number `i` settles with `r`, and the handler
runs on to its next `await` or to its end.  A reply that is not of the awaited kind, or for a
handler that does not exist, changes nothing. -/
def resume (localeDate : JSVal → String) (st : URLShortener) (i : Nat) (r : Reply) :
    URLShortener :=
  match st.pending[i]? with
  | none => st
  | some task =>
    let rest := { st with pending := st.pending.eraseIdx i }
    match task, r with
    | .submitFetch, .failure => submitEnd (.throw rest)
    | .submitFetch, .response ok => { st with pending := st.pending.set i (.submitBody ok) }
    | .submitBody _, .failure => submitEnd (.throw rest)
    | .submitBody ok, .body data => submitEnd (submitSettled ok (some data) rest)
    | .statsFetch, .failure => (statsCatch rest).state
    | .statsFetch, .response true => { st with pending := st.pending.set i .statsBody }
    | .statsFetch, .response false =>
      (tryCatch (showError (.str "Unable to load statistics") rest) statsCatch).state
    | .statsBody, .failure => (statsCatch rest).state
    | .statsBody, .body data =>
      (tryCatch (statsSettled localeDate (some data) rest) statsCatch).state
    | _, _ => st

/-- What can happen to the page: the user edits the URL field, the form is submitted, the
statistics are asked for, an awaited promise settles, or time passes. -/
inductive Op where
  | typeInput (value : String)
  | submit
  | stats
  | settle (i : Nat) (r : Reply)
  | wait (dt : Nat)

/-- Whether the operation is a call of `showStats`. -/
def Op.isStats : Op → Bool
  | .stats => true
  | _ => false

/-- Whether the operation is a call of `handleSubmit`. -/
def Op.isSubmit : Op → Bool
  | .submit => true
  | _ => false

/-- One operation. -/
def step (localeDate : JSVal → String) (st : URLShortener) : Op → URLShortener
  | .typeInput value => { st with urlInputValue := value }
  | .submit => submitBegin st
  | .stats => statsBegin st
  | .settle i r => resume localeDate st i r
  | .wait dt => advance dt st

/-- A sequence of operations. -/
def run (localeDate : JSVal → String) (st : URLShortener) (ops : List Op) : URLShortener :=
  ops.foldl (step localeDate) st

/-- The number of calls of `handleSubmit` that are suspended. -/
def submitsInFlight (st : URLShortener) : Nat :=
  st.pending.countP Task.isSubmit

/-- The number of calls of `showStats` that are suspended. -/
def statsInFlight (st : URLShortener) : Nat :=
  st.pending.countP Task.isStats

/-- The sequences of operations in which the form is submitted only while its submit button
is enabled. -/
def submitsWhenEnabled (localeDate : JSVal → String) : URLShortener → List Op → Bool
  | _, [] => true
  | st, op :: ops =>
    (!op.isSubmit || !st.shortenBtnDisabled) &&
      submitsWhenEnabled localeDate (step localeDate st op) ops

/-- The sequences of operations in which submissions and reads of the statistics do not
overlap: no submission with a non-blank input starts while a call of `showStats` is suspended,
and `showStats` is called only while the result region is visible and no submission is
suspended. -/
def handlersApart (localeDate : JSVal → String) : URLShortener → List Op → Bool
  | _, [] => true
  | st, op :: ops =>
    (!op.isSubmit || jsTrim st.urlInputValue == "" || statsInFlight st == 0) &&
    (!op.isStats || (!st.resultHidden && submitsInFlight st == 0)) &&
      handlersApart localeDate (step localeDate st op) ops

/-- At most one call of `handleSubmit` is suspended, and the loading state (indicator visible,
submit button disabled) is on exactly while one is. -/
def LoadingTracksSubmission (st : URLShortener) : Prop :=
  submitsInFlight st ≤ 1 ∧
  (submitsInFlight st ≠ 0 → st.loadingHidden = false ∧ st.shortenBtnDisabled = true) ∧
  (submitsInFlight st = 0 → st.loadingHidden = true ∧ st.shortenBtnDisabled = false)

/-- The statistics region is visible, or about to be shown by a suspended `showStats`, only
while the result region is visible, no submission is suspended and a non-empty short URL is
stored. -/
def StatsWithinResult (st : URLShortener) : Prop :=
  (st.statsHidden = false ∨ statsInFlight st ≠ 0) →
    st.resultHidden = false ∧ submitsInFlight st = 0 ∧
      ∃ s : String, st.currentShortUrl = .str s ∧ s ≠ ""

/-- A document whose regions are all hidden and whose texts are empty (the class lists of the
markup are not part of the script), with the given text in the URL field; the field of the
short URL is a text input. -/
def idleDocument (input : String) : URLShortener :=
  { urlInputValue := input
    shortenBtnDisabled := false
    shortenBtnHTML := "<i class=\"fas fa-compress-alt\"></i> Shorten"
    loadingHidden := true
    errorHidden := true
    errorText := ""
    resultHidden := true
    shortUrlKind := .text
    shortUrlValue := ""
    shortUrlSelected := false
    statsHidden := true
    clickCountText := ""
    createdDateText := ""
    currentShortUrl := .undefined
    now := 0
    timers := []
    requests := []
    console := []
    pending := [] }

/-! ## Auxiliary facts -/

theorem jsTrim_eq_empty_iff (s : String) :
    jsTrim s = "" ↔ ∀ c ∈ s.data, isJSWhiteSpace c = true := by
  have hmk : ∀ l : List Char, String.mk l = "" ↔ l = [] := by
    intro l
    constructor
    · intro h
      have := congrArg String.data h
      simpa using this
    · intro h
      subst h
      rfl
  unfold jsTrim
  rw [hmk, List.reverse_eq_nil_iff, List.dropWhile_eq_nil_iff]
  constructor
  · intro h
    have hall : ∀ c ∈ s.data.dropWhile isJSWhiteSpace, isJSWhiteSpace c = true := by
      intro c hc
      exact h c (List.mem_reverse.mpr hc)
    have hnil : s.data.dropWhile isJSWhiteSpace = [] := by
      cases hd : s.data.dropWhile isJSWhiteSpace with
      | nil => rfl
      | cons a l =>
        have h1 : isJSWhiteSpace a = true := hall a (by rw [hd]; exact List.mem_cons_self _ _)
        have h2 := List.head_dropWhile_not isJSWhiteSpace s.data (by rw [hd]; simp)
        simp only [hd, List.head_cons] at h2
        rw [h1] at h2
        exact absurd h2 (by decide)
    exact List.dropWhile_eq_nil_iff.mp hnil
  · intro h c hc
    have hnil : s.data.dropWhile isJSWhiteSpace = [] := List.dropWhile_eq_nil_iff.mpr h
    rw [hnil] at hc
    simp at hc

theorem runTimer_eq (a : TimerAction) (st : URLShortener) : runTimer a st = hideError st := by
  cases a; rfl

theorem foldl_runTimer (l : List Timer) (s : URLShortener) :
    l.foldl (fun s t => runTimer t.action s) s =
      { s with errorHidden := s.errorHidden || !l.isEmpty } := by
  induction l generalizing s with
  | nil => simp
  | cons t l ih =>
    rw [List.foldl_cons, ih, runTimer_eq]
    simp [hideError]

theorem advance_eq (dt : Nat) (st : URLShortener) :
    advance dt st =
      { st with
        now := st.now + dt
        timers := st.timers.filter (fun t => !decide (t.due ≤ st.now + dt))
        errorHidden := st.errorHidden ||
          !(st.timers.filter (fun t => decide (t.due ≤ st.now + dt))).isEmpty } := by
  simp [advance, foldl_runTimer]

theorem showError_str (text : String) (st : URLShortener) :
    showError (.str text) st =
      .normal { st with
        errorText := text
        errorHidden := false
        timers := st.timers ++ [⟨st.now + errorDelay, .hideError⟩] } := by
  simp [showError, toTextContent, jsToString]

theorem showError_requests (m : JSVal) (st : URLShortener) :
    (showError m st).state.requests = st.requests := by
  unfold showError
  split <;> rfl

theorem showResult_requests (data : JSVal) (st : URLShortener) :
    (showResult data st).state.requests = st.requests := by
  unfold showResult
  split
  · rfl
  · dsimp only
    split <;> rfl

theorem submitSettled_requests (ok : Bool) (body : Option JSVal) (st : URLShortener) :
    (submitSettled ok body st).state.requests = st.requests := by
  unfold submitSettled
  split
  · rfl
  · split
    · exact showResult_requests _ _
    · split
      · rfl
      · exact showError_requests _ _

theorem submitCatch_eq (st : URLShortener) :
    submitCatch st =
      .normal { st with
        errorText := "Network error. Please try again."
        errorHidden := false
        timers := st.timers ++ [⟨st.now + errorDelay, .hideError⟩]
        console := st.console ++ ["Error:"] } := by
  simp [submitCatch, showError_str, consoleError]

theorem tryCatch_submitCatch_requests (c : Completion) :
    (tryCatch c submitCatch).state.requests = c.state.requests := by
  cases c <;> simp [tryCatch, submitCatch_eq, Completion.state]

theorem tryFinally_state (c : Completion) (f : URLShortener → URLShortener) :
    (tryFinally c f).state = f c.state := by
  cases c <;> rfl

theorem submitTry_requests (url : String) (o : FetchOutcome) (st : URLShortener) :
    (submitTry url o st).state.requests = st.requests ++ [shortenRequest url] := by
  cases o with
  | rejected wait => simp [submitTry, Completion.state, advance_eq, fetch]
  | response wait ok bodyWait body =>
    simp [submitTry, submitSettled_requests, advance_eq, fetch]

theorem splitChars_of_not_mem (sep : Char) (l : List Char) (h : sep ∉ l) :
    splitChars sep l = [l] := by
  induction l with
  | nil => rfl
  | cons c cs ih =>
    have hc : ¬ c = sep := fun e => h (by rw [e]; exact List.mem_cons_self _ _)
    have hcs : sep ∉ cs := fun m => h (List.mem_cons_of_mem _ m)
    simp [splitChars, hc, ih hcs]

theorem splitChars_ne_nil (sep : Char) (l : List Char) : splitChars sep l ≠ [] := by
  cases l with
  | nil => simp [splitChars]
  | cons c cs =>
    unfold splitChars
    split
    · simp
    · split <;> simp

theorem getLast?_splitChars_cons (sep c : Char) (cs : List Char)
    (hlen : 2 ≤ (splitChars sep cs).length) :
    (splitChars sep (c :: cs)).getLast? = (splitChars sep cs).getLast? ∧
    2 ≤ (splitChars sep (c :: cs)).length := by
  cases hsp : splitChars sep cs with
  | nil => rw [hsp] at hlen; simp at hlen
  | cons a rest =>
    cases rest with
    | nil => rw [hsp] at hlen; simp at hlen
    | cons b rest =>
      by_cases hc : c = sep
      · simp [splitChars, hc, hsp]
      · simp [splitChars, hc, hsp]

theorem getLast?_splitChars_append (sep : Char) (pre seg : List Char) :
    (splitChars sep (pre ++ sep :: seg)).getLast? = (splitChars sep seg).getLast? ∧
    2 ≤ (splitChars sep (pre ++ sep :: seg)).length := by
  induction pre with
  | nil =>
    have hne := splitChars_ne_nil sep seg
    cases hsp : splitChars sep seg with
    | nil => exact absurd hsp hne
    | cons a rest => simp [splitChars, hsp]
  | cons c cs ih =>
    have := getLast?_splitChars_cons sep c (cs ++ sep :: seg) ih.2
    exact ⟨by rw [List.cons_append, this.1, ih.1], by rw [List.cons_append]; exact this.2⟩

/-- The value popped from the split of a string that contains the separator: the part after
its last occurrence. -/
theorem jsPop_jsSplit (s : String) (sep : Char) (h : sep ∈ s.data) :
    ∃ pre code : String,
      jsPop (jsSplit s sep) = .str code ∧ s = pre ++ String.singleton sep ++ code ∧
      sep ∉ code.data := by
  obtain ⟨as, bs, hrev, has⟩ := List.eq_append_cons_of_mem (List.mem_reverse.mpr h)
  have hl : s.data = bs.reverse ++ sep :: as.reverse := by
    have := congrArg List.reverse hrev
    simpa using this
  have hseg : sep ∉ as.reverse := fun m => has (List.mem_reverse.mp m)
  refine ⟨String.mk bs.reverse, String.mk as.reverse, ?_, ?_, hseg⟩
  · simp [jsPop, jsSplit, hl, (getLast?_splitChars_append sep bs.reverse as.reverse).1,
      splitChars_of_not_mem sep as.reverse hseg]
  · apply String.ext
    simp [hl, String.singleton]

theorem statsCatch_eq (st : URLShortener) :
    statsCatch st =
      .normal { st with
        errorText := "Error loading statistics"
        errorHidden := false
        timers := st.timers ++ [⟨st.now + errorDelay, .hideError⟩]
        console := st.console ++ ["Stats error:"] } := by
  simp [statsCatch, showError_str, consoleError]

theorem statsBlock_requests (localeDate : JSVal → String) (o : FetchOutcome)
    (st : URLShortener) (s : String) (hcur : st.currentShortUrl = .str s) :
    (tryCatch (statsTry localeDate o st) statsCatch).state.requests =
      st.requests ++ [statsRequest (jsPop (jsSplit s '/'))] := by
  cases o with
  | rejected wait =>
    simp [statsTry, hcur, tryCatch, statsCatch_eq, Completion.state, advance_eq, fetch]
  | response wait ok bodyWait body =>
    simp only [statsTry, hcur, statsSettled, showError_str]
    repeat' split
    all_goals simp [tryCatch, statsCatch_eq, Completion.state, advance_eq, fetch]

/-! ### Suspended handlers -/

theorem set_concat_length {α : Type} (l : List α) (a b : α) :
    (l ++ [a]).set l.length b = l ++ [b] := by
  induction l with
  | nil => rfl
  | cons x l ih => simp [ih]

theorem eraseIdx_concat_length {α : Type} (l : List α) (a : α) :
    (l ++ [a]).eraseIdx l.length = l := by
  induction l with
  | nil => rfl
  | cons x l ih => simp [ih]

theorem countP_pos_of_getElem? {α : Type} (q : α → Bool) :
    ∀ (l : List α) (i : Nat) (t : α), l[i]? = some t → q t = true → l.countP q ≠ 0 := by
  intro l
  induction l with
  | nil => intro i t h; simp at h
  | cons x l ih =>
    intro i t h hq
    cases i with
    | zero =>
      simp at h
      subst h
      simp [List.countP_cons, hq]
    | succ i =>
      simp at h
      have := ih i t h hq
      simp only [List.countP_cons]
      omega

theorem countP_eraseIdx_of {α : Type} (q : α → Bool) :
    ∀ (l : List α) (i : Nat) (t : α), l[i]? = some t →
      (l.eraseIdx i).countP q + (if q t = true then 1 else 0) = l.countP q := by
  intro l
  induction l with
  | nil => intro i t h; simp at h
  | cons x l ih =>
    intro i t h
    cases i with
    | zero =>
      simp at h
      subst h
      simp [List.countP_cons]
    | succ i =>
      simp at h
      have := ih i t h
      simp only [List.eraseIdx_cons_succ, List.countP_cons]
      omega

theorem countP_set_of {α : Type} (q : α → Bool) :
    ∀ (l : List α) (i : Nat) (t u : α), l[i]? = some t → q u = q t →
      (l.set i u).countP q = l.countP q := by
  intro l
  induction l with
  | nil => intro i t u h; simp at h
  | cons x l ih =>
    intro i t u h hq
    cases i with
    | zero =>
      simp at h
      subst h
      simp [List.countP_cons, hq]
    | succ i =>
      simp at h
      have := ih i t u h hq
      simp [List.countP_cons, this]

theorem Task.isSubmit_eq (t : Task) : t.isSubmit = !t.isStats := by
  cases t <;> rfl

theorem submitEnd_frame (c : Completion) :
    (submitEnd c).statsHidden = c.state.statsHidden ∧
    (submitEnd c).pending = c.state.pending ∧
    (submitEnd c).loadingHidden = true ∧
    (submitEnd c).shortenBtnDisabled = false := by
  cases c <;> simp [submitEnd, tryCatch, tryFinally, submitCatch_eq, hideLoading, Completion.state]

theorem submitSettled_frame (ok : Bool) (body : Option JSVal) (st : URLShortener) :
    (submitSettled ok body st).state.statsHidden = st.statsHidden ∧
    (submitSettled ok body st).state.pending = st.pending := by
  simp only [submitSettled, showResult, showError]
  repeat' split
  all_goals simp [Completion.state]

theorem statsEnd_frame (c : Completion) :
    (tryCatch c statsCatch).state.resultHidden = c.state.resultHidden ∧
    (tryCatch c statsCatch).state.currentShortUrl = c.state.currentShortUrl ∧
    (tryCatch c statsCatch).state.loadingHidden = c.state.loadingHidden ∧
    (tryCatch c statsCatch).state.shortenBtnDisabled = c.state.shortenBtnDisabled ∧
    (tryCatch c statsCatch).state.pending = c.state.pending := by
  cases c <;> simp [tryCatch, statsCatch_eq, Completion.state]

theorem statsSettled_frame (localeDate : JSVal → String) (body : Option JSVal)
    (st : URLShortener) :
    (statsSettled localeDate body st).state.resultHidden = st.resultHidden ∧
    (statsSettled localeDate body st).state.currentShortUrl = st.currentShortUrl ∧
    (statsSettled localeDate body st).state.loadingHidden = st.loadingHidden ∧
    (statsSettled localeDate body st).state.shortenBtnDisabled = st.shortenBtnDisabled ∧
    (statsSettled localeDate body st).state.pending = st.pending := by
  simp only [statsSettled]
  repeat' split
  all_goals simp [Completion.state]

theorem resume_of_none (localeDate : JSVal → String) (st : URLShortener) (i : Nat) (r : Reply)
    (h : st.pending[i]? = none) : resume localeDate st i r = st := by
  simp [resume, h]

/-- What a step of a suspended `handleSubmit` leaves alone, and the two ways it can go: the
handler is suspended again, or it ends and the loading state is left. -/
theorem resume_submit (localeDate : JSVal → String) (st : URLShortener) (i : Nat) (r : Reply)
    (t : Task) (ht : st.pending[i]? = some t) (hs : t.isSubmit = true) :
    (resume localeDate st i r).statsHidden = st.statsHidden ∧
    statsInFlight (resume localeDate st i r) = statsInFlight st ∧
    (((resume localeDate st i r).loadingHidden = st.loadingHidden ∧
        (resume localeDate st i r).shortenBtnDisabled = st.shortenBtnDisabled ∧
        submitsInFlight (resume localeDate st i r) = submitsInFlight st) ∨
      ((resume localeDate st i r).loadingHidden = true ∧
        (resume localeDate st i r).shortenBtnDisabled = false ∧
        submitsInFlight (resume localeDate st i r) + 1 = submitsInFlight st)) := by
  have hstats : t.isStats = false := by
    have := Task.isSubmit_eq t
    rw [hs] at this
    simpa using this.symm
  have herase := countP_eraseIdx_of Task.isStats st.pending i t ht
  have herase2 := countP_eraseIdx_of Task.isSubmit st.pending i t ht
  simp only [hstats, hs, if_true, Bool.false_eq_true, if_false, Nat.add_zero] at herase herase2
  have hend : ∀ c : Completion, c.state.statsHidden = st.statsHidden →
      c.state.pending = st.pending.eraseIdx i →
      (submitEnd c).statsHidden = st.statsHidden ∧
      statsInFlight (submitEnd c) = statsInFlight st ∧
      (((submitEnd c).loadingHidden = st.loadingHidden ∧
          (submitEnd c).shortenBtnDisabled = st.shortenBtnDisabled ∧
          submitsInFlight (submitEnd c) = submitsInFlight st) ∨
        ((submitEnd c).loadingHidden = true ∧
          (submitEnd c).shortenBtnDisabled = false ∧
          submitsInFlight (submitEnd c) + 1 = submitsInFlight st)) := by
    intro c h1 h2
    have hf := submitEnd_frame c
    refine ⟨by rw [hf.1, h1], ?_, Or.inr ⟨hf.2.2.1, hf.2.2.2, ?_⟩⟩
    · simp only [statsInFlight, hf.2.1, h2, herase]
    · simp only [submitsInFlight, hf.2.1, h2, herase2]
  have hkeep : ∀ u : Task, u.isSubmit = true →
      ({ st with pending := st.pending.set i u } : URLShortener).statsHidden = st.statsHidden ∧
      statsInFlight { st with pending := st.pending.set i u } = statsInFlight st ∧
      ((({ st with pending := st.pending.set i u } : URLShortener).loadingHidden
            = st.loadingHidden ∧
          ({ st with pending := st.pending.set i u } : URLShortener).shortenBtnDisabled
            = st.shortenBtnDisabled ∧
          submitsInFlight { st with pending := st.pending.set i u } = submitsInFlight st) ∨
        (({ st with pending := st.pending.set i u } : URLShortener).loadingHidden = true ∧
          ({ st with pending := st.pending.set i u } : URLShortener).shortenBtnDisabled
            = false ∧
          submitsInFlight { st with pending := st.pending.set i u } + 1
            = submitsInFlight st)) := by
    intro u hu
    have hu2 : u.isStats = false := by
      have := Task.isSubmit_eq u
      rw [hu] at this
      simpa using this.symm
    refine ⟨rfl, ?_, Or.inl ⟨rfl, rfl, ?_⟩⟩
    · exact countP_set_of Task.isStats st.pending i t u ht (by rw [hu2, hstats])
    · exact countP_set_of Task.isSubmit st.pending i t u ht (by rw [hu, hs])
  have hsame : st.statsHidden = st.statsHidden ∧ statsInFlight st = statsInFlight st ∧
      ((st.loadingHidden = st.loadingHidden ∧
          st.shortenBtnDisabled = st.shortenBtnDisabled ∧
          submitsInFlight st = submitsInFlight st) ∨
        (st.loadingHidden = true ∧ st.shortenBtnDisabled = false ∧
          submitsInFlight st + 1 = submitsInFlight st)) :=
    ⟨rfl, rfl, Or.inl ⟨rfl, rfl, rfl⟩⟩
  cases t with
  | statsFetch => simp [Task.isSubmit] at hs
  | statsBody => simp [Task.isSubmit] at hs
  | submitFetch =>
    cases r
    case failure =>
      have hr : resume localeDate st i .failure =
          submitEnd (.throw { st with pending := st.pending.eraseIdx i }) := by
        simp [resume, ht]
      rw [hr]
      exact hend _ rfl rfl
    case response ok =>
      have hr : resume localeDate st i (.response ok) =
          { st with pending := st.pending.set i (.submitBody ok) } := by
        simp [resume, ht]
      rw [hr]
      exact hkeep _ rfl
    case body data =>
      have hr : resume localeDate st i (.body data) = st := by
        simp [resume, ht]
      rw [hr]
      exact hsame
  | submitBody ok =>
    cases r
    case failure =>
      have hr : resume localeDate st i .failure =
          submitEnd (.throw { st with pending := st.pending.eraseIdx i }) := by
        simp [resume, ht]
      rw [hr]
      exact hend _ rfl rfl
    case response ok1 =>
      have hr : resume localeDate st i (.response ok1) = st := by
        simp [resume, ht]
      rw [hr]
      exact hsame
    case body data =>
      have hr : resume localeDate st i (.body data) =
          submitEnd (submitSettled ok (some data)
            { st with pending := st.pending.eraseIdx i }) := by
        simp [resume, ht]
      rw [hr]
      exact hend _ (submitSettled_frame _ _ _).1 (submitSettled_frame _ _ _).2

/-- What a step of a suspended `showStats` leaves alone. -/
theorem resume_stats (localeDate : JSVal → String) (st : URLShortener) (i : Nat) (r : Reply)
    (t : Task) (ht : st.pending[i]? = some t) (hs : t.isStats = true) :
    (resume localeDate st i r).resultHidden = st.resultHidden ∧
    (resume localeDate st i r).currentShortUrl = st.currentShortUrl ∧
    (resume localeDate st i r).loadingHidden = st.loadingHidden ∧
    (resume localeDate st i r).shortenBtnDisabled = st.shortenBtnDisabled ∧
    submitsInFlight (resume localeDate st i r) = submitsInFlight st := by
  have hsub : t.isSubmit = false := by
    rw [Task.isSubmit_eq, hs]; rfl
  have herase := countP_eraseIdx_of Task.isSubmit st.pending i t ht
  simp only [hsub, Bool.false_eq_true, if_false, Nat.add_zero] at herase
  have hend : ∀ c : Completion, c.state.resultHidden = st.resultHidden →
      c.state.currentShortUrl = st.currentShortUrl →
      c.state.loadingHidden = st.loadingHidden →
      c.state.shortenBtnDisabled = st.shortenBtnDisabled →
      c.state.pending = st.pending.eraseIdx i →
      (tryCatch c statsCatch).state.resultHidden = st.resultHidden ∧
      (tryCatch c statsCatch).state.currentShortUrl = st.currentShortUrl ∧
      (tryCatch c statsCatch).state.loadingHidden = st.loadingHidden ∧
      (tryCatch c statsCatch).state.shortenBtnDisabled = st.shortenBtnDisabled ∧
      submitsInFlight (tryCatch c statsCatch).state = submitsInFlight st := by
    intro c h1 h2 h3 h4 h5
    have hf := statsEnd_frame c
    refine ⟨by rw [hf.1, h1], by rw [hf.2.1, h2], by rw [hf.2.2.1, h3],
      by rw [hf.2.2.2.1, h4], ?_⟩
    simp only [submitsInFlight, hf.2.2.2.2, h5, herase]
  cases t with
  | submitFetch => simp [Task.isStats] at hs
  | submitBody ok => simp [Task.isStats] at hs
  | statsFetch =>
    cases r
    case failure =>
      have hr : resume localeDate st i .failure =
          (tryCatch (.throw { st with pending := st.pending.eraseIdx i }) statsCatch).state := by
        simp [resume, ht, tryCatch]
      rw [hr]
      exact hend _ rfl rfl rfl rfl rfl
    case response ok =>
      cases ok
      case true =>
        have hr : resume localeDate st i (.response true) =
            { st with pending := st.pending.set i .statsBody } := by
          simp [resume, ht]
        rw [hr]
        exact ⟨rfl, rfl, rfl, rfl,
          countP_set_of Task.isSubmit st.pending i .statsFetch .statsBody ht rfl⟩
      case false =>
        have hr : resume localeDate st i (.response false) =
            (tryCatch (showError (.str "Unable to load statistics")
              { st with pending := st.pending.eraseIdx i }) statsCatch).state := by
          simp [resume, ht]
        rw [hr, showError_str]
        exact hend _ rfl rfl rfl rfl rfl
    case body data =>
      have hr : resume localeDate st i (.body data) = st := by
        simp [resume, ht]
      rw [hr]
      exact ⟨rfl, rfl, rfl, rfl, rfl⟩
  | statsBody =>
    cases r
    case failure =>
      have hr : resume localeDate st i .failure =
          (tryCatch (.throw { st with pending := st.pending.eraseIdx i }) statsCatch).state := by
        simp [resume, ht, tryCatch]
      rw [hr]
      exact hend _ rfl rfl rfl rfl rfl
    case response ok =>
      have hr : resume localeDate st i (.response ok) = st := by
        simp [resume, ht]
      rw [hr]
      exact ⟨rfl, rfl, rfl, rfl, rfl⟩
    case body data =>
      have hr : resume localeDate st i (.body data) =
          (tryCatch (statsSettled localeDate (some data)
            { st with pending := st.pending.eraseIdx i }) statsCatch).state := by
        simp [resume, ht]
      rw [hr]
      have hf := statsSettled_frame localeDate (some data)
        { st with pending := st.pending.eraseIdx i }
      exact hend _ hf.1 hf.2.1 hf.2.2.1 hf.2.2.2.1 hf.2.2.2.2

theorem submitBegin_blank (st : URLShortener) (h : jsTrim st.urlInputValue = "") :
    submitBegin st =
      { st with
        errorText := "Please enter a URL"
        errorHidden := false
        timers := st.timers ++ [⟨st.now + errorDelay, .hideError⟩] } := by
  simp [submitBegin, h, showError_str, Completion.state]

theorem submitBegin_valid (st : URLShortener) (h : jsTrim st.urlInputValue ≠ "") :
    submitBegin st =
      { fetch (shortenRequest (jsTrim st.urlInputValue)) (submitPrologue st) with
        pending := st.pending ++ [.submitFetch] } := by
  simp [submitBegin, h, fetch, submitPrologue, hideStats, hideResult, hideError, showLoading]

theorem statsBegin_frame (st : URLShortener) :
    (statsBegin st).statsHidden = st.statsHidden ∧
    (statsBegin st).resultHidden = st.resultHidden ∧
    (statsBegin st).currentShortUrl = st.currentShortUrl ∧
    (statsBegin st).loadingHidden = st.loadingHidden ∧
    (statsBegin st).shortenBtnDisabled = st.shortenBtnDisabled ∧
    submitsInFlight (statsBegin st) = submitsInFlight st ∧
    (statsInFlight (statsBegin st) ≠ 0 →
      statsInFlight st ≠ 0 ∨ ∃ s : String, st.currentShortUrl = .str s ∧ s ≠ "") := by
  unfold statsBegin
  split
  · exact ⟨rfl, rfl, rfl, rfl, rfl, rfl, fun h => Or.inl h⟩
  · next htruthy =>
    split
    · next s hcur =>
      refine ⟨rfl, rfl, rfl, rfl, rfl, ?_, fun _ => Or.inr ⟨s, hcur, ?_⟩⟩
      · simp [submitsInFlight, fetch, List.countP_append, Task.isSubmit]
      · intro hs
        rw [hcur, hs] at htruthy
        simp [truthy] at htruthy
    · refine ⟨?_, ?_, ?_, ?_, ?_, ?_, fun h => Or.inl ?_⟩
      all_goals simp [statsCatch_eq, Completion.state, submitsInFlight]
      simpa [statsCatch_eq, Completion.state, statsInFlight] using h

theorem getElem?_isSubmit_of_quiet (st : URLShortener) (i : Nat) (t : Task)
    (ht : st.pending[i]? = some t) (hq : statsInFlight st = 0) : t.isSubmit = true := by
  rw [Task.isSubmit_eq]
  cases hs : t.isStats with
  | false => rfl
  | true => exact absurd hq (countP_pos_of_getElem? Task.isStats st.pending i t ht hs)

/-- Unless `showStats` is called, the statistics region stays hidden once it is hidden and no
call of `showStats` is suspended. -/
theorem step_stats_quiet (localeDate : JSVal → String) (st : URLShortener) (op : Op)
    (hop : op.isStats = false) (hh : st.statsHidden = true) (hq : statsInFlight st = 0) :
    (step localeDate st op).statsHidden = true ∧ statsInFlight (step localeDate st op) = 0 := by
  cases op with
  | typeInput value => exact ⟨hh, hq⟩
  | stats => simp [Op.isStats] at hop
  | wait dt => simpa [step, advance_eq, statsInFlight] using And.intro hh hq
  | submit =>
    by_cases hb : jsTrim st.urlInputValue = ""
    · simp only [step]
      rw [submitBegin_blank st hb]
      exact ⟨hh, hq⟩
    · simp only [step]
      rw [submitBegin_valid st hb]
      refine ⟨rfl, ?_⟩
      have : List.countP Task.isStats st.pending = 0 := hq
      simp [statsInFlight, List.countP_append, Task.isStats, this]
  | settle i r =>
    simp only [step]
    cases ht : st.pending[i]? with
    | none => rw [resume_of_none localeDate st i r ht]; exact ⟨hh, hq⟩
    | some t =>
      have h := resume_submit localeDate st i r t ht (getElem?_isSubmit_of_quiet st i t ht hq)
      exact ⟨by rw [h.1, hh], by rw [h.2.1, hq]⟩

theorem run_stats_quiet (localeDate : JSVal → String) (ops : List Op) :
    ∀ st : URLShortener, (∀ op ∈ ops, op.isStats = false) → st.statsHidden = true →
      statsInFlight st = 0 →
      (run localeDate st ops).statsHidden = true ∧ statsInFlight (run localeDate st ops) = 0 := by
  induction ops with
  | nil => intro st _ hh hq; exact ⟨hh, hq⟩
  | cons op ops ih =>
    intro st hops hh hq
    have h1 := step_stats_quiet localeDate st op (hops op (List.mem_cons_self _ _)) hh hq
    exact ih (step localeDate st op) (fun o ho => hops o (List.mem_cons_of_mem _ ho)) h1.1 h1.2

theorem submitBegin_stats_quiet (st : URLShortener) (h : jsTrim st.urlInputValue ≠ "")
    (hq : statsInFlight st = 0) :
    (submitBegin st).statsHidden = true ∧ statsInFlight (submitBegin st) = 0 := by
  rw [submitBegin_valid st h]
  refine ⟨rfl, ?_⟩
  have : List.countP Task.isStats st.pending = 0 := hq
  simp [statsInFlight, List.countP_append, Task.isStats, this]

theorem dropWhile_eq_self_of_forall {α : Type} (q : α → Bool) (l : List α)
    (h : ∀ a ∈ l, q a = false) : l.dropWhile q = l := by
  cases l with
  | nil => rfl
  | cons a l => simp [List.dropWhile, h a (List.mem_cons_self _ _)]

theorem normalizeNewlines_eq_self (l : List Char) (h : ∀ c ∈ l, c ≠ '\r') :
    normalizeNewlines l = l := by
  induction l with
  | nil => rfl
  | cons c l ih =>
    have hc : c ≠ '\r' := h c (List.mem_cons_self _ _)
    have hl := ih (fun d hd => h d (List.mem_cons_of_mem _ hd))
    unfold normalizeNewlines
    split <;> simp_all

/-- A string without ASCII white space is reported unchanged by every kind of field. -/
theorem sanitize_eq_self (kind : FieldKind) (s : String)
    (h : ∀ c ∈ s.data, isAsciiWhitespace c = false) : sanitize kind s = s := by
  have hparts : ∀ c ∈ s.data, c ≠ '\n' ∧ c ≠ '\r' := by
    intro c hc
    have := h c hc
    simp [isAsciiWhitespace] at this
    exact ⟨this.1.1.1.2, this.1.2⟩
  have hstrip : stripNewlines s.data = s.data := by
    unfold stripNewlines
    rw [List.filter_eq_self]
    intro c hc
    simp [(hparts c hc).1, (hparts c hc).2]
  have hws : stripAsciiWhitespace s.data = s.data := by
    unfold stripAsciiWhitespace
    rw [dropWhile_eq_self_of_forall _ _ h,
      dropWhile_eq_self_of_forall _ _ (fun a ha => h a (List.mem_reverse.mp ha)),
      List.reverse_reverse]
  cases kind with
  | text => simp [sanitize, hstrip]
  | url => simp [sanitize, hstrip, hws]
  | textarea =>
    simp [sanitize, normalizeNewlines_eq_self s.data (fun c hc => (hparts c hc).2)]

theorem step_loading_tracks (localeDate : JSVal → String) (st : URLShortener) (op : Op)
    (hguard : op.isSubmit = true → st.shortenBtnDisabled = false)
    (hinv : LoadingTracksSubmission st) : LoadingTracksSubmission (step localeDate st op) := by
  obtain ⟨hle, hon, hoff⟩ := hinv
  cases op with
  | typeInput value => exact ⟨hle, hon, hoff⟩
  | wait dt =>
    simpa [step, advance_eq, LoadingTracksSubmission, submitsInFlight] using
      (⟨hle, hon, hoff⟩ : LoadingTracksSubmission st)
  | submit =>
    have hzero : submitsInFlight st = 0 := by
      by_contra hne
      have := (hon hne).2
      rw [hguard rfl] at this
      exact absurd this (by decide)
    by_cases hb : jsTrim st.urlInputValue = ""
    · simp only [step]
      rw [submitBegin_blank st hb]
      exact ⟨hle, hon, hoff⟩
    · simp only [step]
      rw [submitBegin_valid st hb]
      have hcount : List.countP Task.isSubmit st.pending = 0 := hzero
      have hone : submitsInFlight
          { fetch (shortenRequest (jsTrim st.urlInputValue)) (submitPrologue st) with
            pending := st.pending ++ [.submitFetch] } = 1 := by
        simp [submitsInFlight, List.countP_append, Task.isSubmit, hcount]
      refine ⟨by rw [hone], fun _ => ⟨rfl, rfl⟩, fun h0 => ?_⟩
      rw [hone] at h0
      exact absurd h0 (by decide)
  | stats =>
    have hf := statsBegin_frame st
    simp only [step, LoadingTracksSubmission]
    rw [hf.2.2.2.1, hf.2.2.2.2.1, hf.2.2.2.2.2.1]
    exact ⟨hle, hon, hoff⟩
  | settle i r =>
    simp only [step]
    cases ht : st.pending[i]? with
    | none => rw [resume_of_none localeDate st i r ht]; exact ⟨hle, hon, hoff⟩
    | some t =>
      cases hs : t.isSubmit with
      | true =>
        have h := (resume_submit localeDate st i r t ht hs).2.2
        rcases h with ⟨h1, h2, h3⟩ | ⟨h1, h2, h3⟩
        · simp only [LoadingTracksSubmission]
          rw [h1, h2, h3]
          exact ⟨hle, hon, hoff⟩
        · have h0 : submitsInFlight (resume localeDate st i r) = 0 := by omega
          exact ⟨by omega, fun hne => absurd h0 hne, fun _ => ⟨h1, h2⟩⟩
      | false =>
        have hstats : t.isStats = true := by
          have := Task.isSubmit_eq t
          rw [hs] at this
          cases hst : t.isStats with
          | true => rfl
          | false => rw [hst] at this; exact absurd this (by decide)
        have h := resume_stats localeDate st i r t ht hstats
        simp only [LoadingTracksSubmission]
        rw [h.2.2.1, h.2.2.2.1, h.2.2.2.2]
        exact ⟨hle, hon, hoff⟩

theorem run_loading_tracks (localeDate : JSVal → String) (ops : List Op) :
    ∀ st : URLShortener, submitsWhenEnabled localeDate st ops = true →
      LoadingTracksSubmission st → LoadingTracksSubmission (run localeDate st ops) := by
  induction ops with
  | nil => intro st _ hinv; exact hinv
  | cons op ops ih =>
    intro st hguard hinv
    simp only [submitsWhenEnabled, Bool.and_eq_true, Bool.or_eq_true, Bool.not_eq_true'] at hguard
    have hg : op.isSubmit = true → st.shortenBtnDisabled = false := by
      intro hop
      rcases hguard.1 with h | h
      · rw [hop] at h; exact absurd h (by decide)
      · exact h
    exact ih (step localeDate st op) hguard.2 (step_loading_tracks localeDate st op hg hinv)

theorem step_stats_within_result (localeDate : JSVal → String) (st : URLShortener) (op : Op)
    (hsub : op.isSubmit = true → jsTrim st.urlInputValue ≠ "" → statsInFlight st = 0)
    (hstats : op.isStats = true → st.resultHidden = false ∧ submitsInFlight st = 0)
    (hinv : StatsWithinResult st) : StatsWithinResult (step localeDate st op) := by
  cases op with
  | typeInput value => exact hinv
  | wait dt =>
    simpa [step, advance_eq, StatsWithinResult, submitsInFlight, statsInFlight] using hinv
  | submit =>
    by_cases hb : jsTrim st.urlInputValue = ""
    · simp only [step]
      rw [submitBegin_blank st hb]
      exact hinv
    · have hq := submitBegin_stats_quiet st hb (hsub rfl hb)
      intro hprem
      simp only [step] at hprem
      rcases hprem with h | h
      · rw [hq.1] at h; exact absurd h (by decide)
      · exact absurd hq.2 h
  | stats =>
    have hf := statsBegin_frame st
    have hg := hstats rfl
    intro hprem
    simp only [step] at hprem ⊢
    rw [hf.2.1, hf.2.2.1, hf.2.2.2.2.2.1]
    rcases hprem with h | h
    · rw [hf.1] at h
      exact hinv (Or.inl h)
    · rcases hf.2.2.2.2.2.2 h with h1 | h1
      · exact hinv (Or.inr h1)
      · exact ⟨hg.1, hg.2, h1⟩
  | settle i r =>
    simp only [step]
    cases ht : st.pending[i]? with
    | none => rw [resume_of_none localeDate st i r ht]; exact hinv
    | some t =>
      cases hs : t.isStats with
      | true =>
        have hbefore := hinv (Or.inr (countP_pos_of_getElem? Task.isStats st.pending i t ht hs))
        have h := resume_stats localeDate st i r t ht hs
        intro _
        rw [h.1, h.2.1, h.2.2.2.2]
        exact hbefore
      | false =>
        have hsubmit : t.isSubmit = true := by rw [Task.isSubmit_eq, hs]; rfl
        have hflight : submitsInFlight st ≠ 0 :=
          countP_pos_of_getElem? Task.isSubmit st.pending i t ht hsubmit
        have h := resume_submit localeDate st i r t ht hsubmit
        intro hprem
        rw [h.1, h.2.1] at hprem
        exact absurd (hinv hprem).2.1 hflight

theorem run_stats_within_result (localeDate : JSVal → String) (ops : List Op) :
    ∀ st : URLShortener, handlersApart localeDate st ops = true →
      StatsWithinResult st → StatsWithinResult (run localeDate st ops) := by
  induction ops with
  | nil => intro st _ hinv; exact hinv
  | cons op ops ih =>
    intro st hguard hinv
    simp only [handlersApart, Bool.and_eq_true, Bool.or_eq_true, Bool.not_eq_true',
      beq_iff_eq] at hguard
    have hsub : op.isSubmit = true → jsTrim st.urlInputValue ≠ "" → statsInFlight st = 0 := by
      intro hop hvalid
      rcases hguard.1.1 with (h | h) | h
      · rw [hop] at h; exact absurd h (by decide)
      · exact absurd h hvalid
      · exact h
    have hstats : op.isStats = true → st.resultHidden = false ∧ submitsInFlight st = 0 := by
      intro hop
      rcases hguard.1.2 with h | h
      · rw [hop] at h; exact absurd h (by decide)
      · exact h
    exact ih (step localeDate st op) hguard.2
      (step_stats_within_result localeDate st op hsub hstats hinv)

/-! ### The handlers as one function of the outcome -/

theorem getElem?_concat_self {α : Type} (l : List α) (a : α) :
    (l ++ [a])[l.length]? = some a := by
  simp

/-- The state `handleSubmit` leaves, as a function of the outcome, is the one reached by its
steps when only timers fire while it is suspended. -/
theorem handleSubmit_eq_run (localeDate : JSVal → String) (st : URLShortener)
    (h : jsTrim st.urlInputValue ≠ "") (wait bodyWait : Nat) (ok : Bool) (data : JSVal) :
    (handleSubmit (.rejected wait) st).state =
      run localeDate st [.submit, .wait wait, .settle st.pending.length .failure] ∧
    (handleSubmit (.response wait ok bodyWait none) st).state =
      run localeDate st [.submit, .wait wait, .settle st.pending.length (.response ok),
        .wait bodyWait, .settle st.pending.length .failure] ∧
    (handleSubmit (.response wait ok bodyWait (some data)) st).state =
      run localeDate st [.submit, .wait wait, .settle st.pending.length (.response ok),
        .wait bodyWait, .settle st.pending.length (.body data)] := by
  refine ⟨?_, ?_, ?_⟩
  · simp [handleSubmit, h, submitTry, run, step, submitBegin, resume, submitEnd, advance_eq,
      submitPrologue, hideStats, hideResult, hideError, showLoading, fetch,
      eraseIdx_concat_length]
  · simp [handleSubmit, h, submitTry, submitSettled, run, step, submitBegin, resume, submitEnd,
      advance_eq, submitPrologue, hideStats, hideResult, hideError, showLoading, fetch,
      eraseIdx_concat_length, set_concat_length]
  · simp [handleSubmit, h, submitTry, run, step, submitBegin, resume, submitEnd,
      advance_eq, submitPrologue, hideStats, hideResult, hideError, showLoading, fetch,
      eraseIdx_concat_length, set_concat_length]

/-- The state `showStats` leaves, as a function of the outcome, is the one reached by its
steps when only timers fire while it is suspended. -/
theorem showStats_eq_run (localeDate : JSVal → String) (st : URLShortener) (s : String)
    (hcur : st.currentShortUrl = .str s) (hs : s ≠ "") (wait bodyWait : Nat) (data : JSVal) :
    (showStats localeDate (.rejected wait) st).state =
      run localeDate st [.stats, .wait wait, .settle st.pending.length .failure] ∧
    (showStats localeDate (.response wait false bodyWait (some data)) st).state =
      run localeDate st [.stats, .wait wait, .settle st.pending.length (.response false)] ∧
    (showStats localeDate (.response wait true bodyWait none) st).state =
      run localeDate st [.stats, .wait wait, .settle st.pending.length (.response true),
        .wait bodyWait, .settle st.pending.length .failure] ∧
    (showStats localeDate (.response wait true bodyWait (some data)) st).state =
      run localeDate st [.stats, .wait wait, .settle st.pending.length (.response true),
        .wait bodyWait, .settle st.pending.length (.body data)] := by
  have htruthy : truthy (.str s) = true := by simp [truthy, hs]
  refine ⟨?_, ?_, ?_, ?_⟩
  · simp [showStats, hcur, htruthy, statsTry, run, step, statsBegin, resume, advance_eq,
      fetch, eraseIdx_concat_length, tryCatch]
  · simp [showStats, hcur, htruthy, statsTry, run, step, statsBegin, resume, advance_eq,
      fetch, eraseIdx_concat_length, tryCatch]
  · simp [showStats, hcur, htruthy, statsTry, statsSettled, run, step, statsBegin, resume,
      advance_eq, fetch, eraseIdx_concat_length, set_concat_length, tryCatch]
  · simp [showStats, hcur, htruthy, statsTry, run, step, statsBegin, resume,
      advance_eq, fetch, eraseIdx_concat_length, set_concat_length]

/-! ## The properties -/

/-- C1: a submission whose trimmed input is not empty issues exactly one request, a `POST` to
`/shorten` whose body is the object with the single field `url` holding the trimmed input,
whatever the network answers. -/
theorem handleSubmit_issues_one_request (o : FetchOutcome) (st : URLShortener)
    (h : jsTrim st.urlInputValue ≠ "") :
    ∃ r : Request,
      (handleSubmit o st).state.requests = st.requests ++ [r] ∧
      r.method = "POST" ∧ r.url = "/shorten" ∧
      r.body = some (.obj [("url", .str (jsTrim st.urlInputValue))]) := by
  refine ⟨shortenRequest (jsTrim st.urlInputValue), ?_, rfl, rfl, rfl⟩
  simp only [handleSubmit, h, if_false, tryFinally_state]
  simp [hideLoading, tryCatch_submitCatch_requests, submitTry_requests, submitPrologue,
    hideStats, hideResult, hideError, showLoading]

/-- Witness of C1: the input `"  https://example.com/a "` on an idle page, the request being
rejected. -/
theorem handleSubmit_issues_one_request_witness :
    jsTrim (idleDocument "  https://example.com/a ").urlInputValue ≠ "" ∧
    ∃ r : Request,
      (handleSubmit (.rejected 0) (idleDocument "  https://example.com/a ")).state.requests =
        (idleDocument "  https://example.com/a ").requests ++ [r] ∧
      r.method = "POST" ∧ r.url = "/shorten" ∧
      r.body = some (.obj [("url",
        .str (jsTrim (idleDocument "  https://example.com/a ").urlInputValue))]) :=
  ⟨by decide,
    handleSubmit_issues_one_request (.rejected 0) (idleDocument "  https://example.com/a ")
      (by decide)⟩

/-- C2: when the input is empty or made of white space only, `handleSubmit` does nothing but
`showError` with the validation message: no request leaves, the error region shows
`Please enter a URL`, and the loading indicator and the submit button are left as they were. -/
theorem handleSubmit_blank_input (o : FetchOutcome) (st : URLShortener)
    (h : ∀ c ∈ st.urlInputValue.data, isJSWhiteSpace c = true) :
    handleSubmit o st =
      .normal { st with
        errorText := "Please enter a URL"
        errorHidden := false
        timers := st.timers ++ [⟨st.now + errorDelay, .hideError⟩] } ∧
    (handleSubmit o st).state.requests = st.requests ∧
    (handleSubmit o st).state.errorText = "Please enter a URL" ∧
    (handleSubmit o st).state.errorHidden = false ∧
    (handleSubmit o st).state.loadingHidden = st.loadingHidden ∧
    (handleSubmit o st).state.shortenBtnDisabled = st.shortenBtnDisabled ∧
    (handleSubmit o st).state.shortenBtnHTML = st.shortenBtnHTML := by
  have hb : jsTrim st.urlInputValue = "" := (jsTrim_eq_empty_iff _).mpr h
  have heq : handleSubmit o st =
      .normal { st with
        errorText := "Please enter a URL"
        errorHidden := false
        timers := st.timers ++ [⟨st.now + errorDelay, .hideError⟩] } := by
    simp [handleSubmit, hb, showError_str]
  refine ⟨heq, ?_, ?_, ?_, ?_, ?_, ?_⟩ <;> rw [heq] <;> rfl

/-- Witness of C2: three white-space characters typed on an idle page. -/
theorem handleSubmit_blank_input_witness :
    (handleSubmit (.rejected 0) (idleDocument " \t\n")).state.requests = [] ∧
    (handleSubmit (.rejected 0) (idleDocument " \t\n")).state.errorText = "Please enter a URL" ∧
    (handleSubmit (.rejected 0) (idleDocument " \t\n")).state.errorHidden = false ∧
    (handleSubmit (.rejected 0) (idleDocument " \t\n")).state.loadingHidden = true :=
  have h := handleSubmit_blank_input (.rejected 0) (idleDocument " \t\n") (by decide)
  ⟨h.2.1, h.2.2.1, h.2.2.2.1, h.2.2.2.2.1⟩

/-- Counterexample to C3 as stated.  First run: a call of `showStats` made before the
submission is answered while the submission waits, after `hideStats` has run, so that the
submission settles on its success response with the statistics region visible.  Second run:
the short URL holds a line feed, which the text input drops from its value. -/
theorem handleSubmit_success_stats_visible :
    (run (fun _ => "1/2/2024") (constructor (idleDocument "https://example.com/long"))
      [.submit, .settle 0 (.response true),
       .settle 0 (.body (.obj [("short_url", .str "https://x/old")])),
       .stats,
       .submit,
       .settle 0 (.response true),
       .settle 0 (.body (.obj [("click_count", .num "3"), ("created_at", .str "2024-01-02")])),
       .settle 0 (.response true)]).pending = [.submitBody true] ∧
    (run (fun _ => "1/2/2024") (constructor (idleDocument "https://example.com/long"))
      [.submit, .settle 0 (.response true),
       .settle 0 (.body (.obj [("short_url", .str "https://x/old")])),
       .stats,
       .submit,
       .settle 0 (.response true),
       .settle 0 (.body (.obj [("click_count", .num "3"), ("created_at", .str "2024-01-02")])),
       .settle 0 (.response true),
       .settle 0 (.body (.obj [("short_url", .str "https://x/abc")]))]).shortUrlValue
      = "https://x/abc" ∧
    (run (fun _ => "1/2/2024") (constructor (idleDocument "https://example.com/long"))
      [.submit, .settle 0 (.response true),
       .settle 0 (.body (.obj [("short_url", .str "https://x/old")])),
       .stats,
       .submit,
       .settle 0 (.response true),
       .settle 0 (.body (.obj [("click_count", .num "3"), ("created_at", .str "2024-01-02")])),
       .settle 0 (.response true),
       .settle 0 (.body (.obj [("short_url", .str "https://x/abc")]))]).statsHidden = false ∧
    (run (fun _ => "1/2/2024") (constructor (idleDocument "https://example.com/long"))
      [.submit, .settle 0 (.response true),
       .settle 0 (.body (.obj [("short_url", .str "https://x/a\nb")]))]).shortUrlValue
      = "https://x/ab" ∧
    (run (fun _ => "1/2/2024") (constructor (idleDocument "https://example.com/long"))
      [.submit, .settle 0 (.response true),
       .settle 0 (.body (.obj [("short_url", .str "https://x/a\nb")]))]).shortUrlValue
      ≠ "https://x/a\nb" := by
  refine ⟨?_, ?_, ?_, ?_, ?_⟩ <;> decide

/-- C3, amended: when a suspended `handleSubmit` receives a success response whose
`short_url` is the string `s`, it ends with `s` as current short URL, with the field showing
`s` as the field sanitizes it (`s` itself when `s` holds no white space) and with the result
region visible; it leaves the statistics region as it finds it.  When the submission started
with no call of `showStats` suspended and `showStats` has not been called since, the
statistics region is hidden at that point, whatever it was before the submission, and stays
hidden under every sequence of operations without a call of `showStats`. -/
theorem handleSubmit_success (localeDate : JSVal → String) (st0 : URLShortener) (i : Nat)
    (data : JSVal) (s : String) (htask : st0.pending[i]? = some (.submitBody true))
    (hdata : getProp data "short_url" = some (.str s)) :
    (step localeDate st0 (.settle i (.body data))).currentShortUrl = .str s ∧
    (step localeDate st0 (.settle i (.body data))).shortUrlValue = sanitize st0.shortUrlKind s ∧
    ((∀ c ∈ s.data, isAsciiWhitespace c = false) →
      (step localeDate st0 (.settle i (.body data))).shortUrlValue = s) ∧
    (step localeDate st0 (.settle i (.body data))).resultHidden = false ∧
    (step localeDate st0 (.settle i (.body data))).statsHidden = st0.statsHidden ∧
    (∀ (st : URLShortener) (mid : List Op), jsTrim st.urlInputValue ≠ "" →
      statsInFlight st = 0 → (∀ op ∈ mid, op.isStats = false) →
      st0 = run localeDate (step localeDate st .submit) mid →
      (step localeDate st0 (.settle i (.body data))).statsHidden = true ∧
      ∀ after : List Op, (∀ op ∈ after, op.isStats = false) →
        (run localeDate (step localeDate st0 (.settle i (.body data))) after).statsHidden
          = true) := by
  have hr : step localeDate st0 (.settle i (.body data)) =
      submitEnd (submitSettled true (some data)
        { st0 with pending := st0.pending.eraseIdx i }) := by
    simp [step, resume, htask]
  have hvalue : (step localeDate st0 (.settle i (.body data))).shortUrlValue
      = sanitize st0.shortUrlKind s := by
    rw [hr]
    simp [submitEnd, submitSettled, showResult, hdata, toInputValue, jsToString, tryCatch,
      tryFinally, Completion.state, hideLoading]
  have hstats : (step localeDate st0 (.settle i (.body data))).statsHidden = st0.statsHidden := by
    rw [hr, (submitEnd_frame _).1, (submitSettled_frame _ _ _).1]
  have hflight : statsInFlight (step localeDate st0 (.settle i (.body data)))
      = statsInFlight st0 :=
    (resume_submit localeDate st0 i (.body data) _ htask rfl).2.1
  refine ⟨?_, hvalue, ?_, ?_, hstats, ?_⟩
  · rw [hr]
    simp [submitEnd, submitSettled, showResult, hdata, toInputValue, jsToString, tryCatch,
      tryFinally, Completion.state, hideLoading]
  · intro hs
    rw [hvalue, sanitize_eq_self _ s hs]
  · rw [hr]
    simp [submitEnd, submitSettled, showResult, hdata, toInputValue, jsToString, tryCatch,
      tryFinally, Completion.state, hideLoading]
  · intro st mid hvalid hq hmid hst0
    have hbegin := submitBegin_stats_quiet st hvalid hq
    have hrun := run_stats_quiet localeDate mid (step localeDate st .submit) hmid
      hbegin.1 hbegin.2
    rw [← hst0] at hrun
    have hsettled : (step localeDate st0 (.settle i (.body data))).statsHidden = true := by
      rw [hstats, hrun.1]
    refine ⟨hsettled, fun after hafter => ?_⟩
    exact (run_stats_quiet localeDate after _ hafter hsettled (by rw [hflight, hrun.2])).1

/-- Witness of C3: the response `{short_url: "https://x/abc"}` to a submission made while the
result and the statistics of an earlier one were on display. -/
theorem handleSubmit_success_witness :
    (step (fun _ => "1/2/2024")
      (run (fun _ => "1/2/2024")
        (step (fun _ => "1/2/2024")
          { idleDocument "https://example.com/long" with
            resultHidden := false, statsHidden := false } .submit)
        [.wait 120, .settle 0 (.response true), .wait 3])
      (.settle 0 (.body (.obj [("short_url", .str "https://x/abc")])))).shortUrlValue
      = "https://x/abc" ∧
    (step (fun _ => "1/2/2024")
      (run (fun _ => "1/2/2024")
        (step (fun _ => "1/2/2024")
          { idleDocument "https://example.com/long" with
            resultHidden := false, statsHidden := false } .submit)
        [.wait 120, .settle 0 (.response true), .wait 3])
      (.settle 0 (.body (.obj [("short_url", .str "https://x/abc")])))).statsHidden = true :=
  have h := handleSubmit_success (fun _ => "1/2/2024")
    (run (fun _ => "1/2/2024")
      (step (fun _ => "1/2/2024")
        { idleDocument "https://example.com/long" with
          resultHidden := false, statsHidden := false } .submit)
      [.wait 120, .settle 0 (.response true), .wait 3])
    0 (.obj [("short_url", .str "https://x/abc")]) "https://x/abc" (by decide) (by rfl)
  ⟨h.2.2.1 (by decide),
    (h.2.2.2.2.2
      { idleDocument "https://example.com/long" with
        resultHidden := false, statsHidden := false }
      [.wait 120, .settle 0 (.response true), .wait 3] (by decide) (by decide) (by decide)
      rfl).1⟩

/-- Counterexample to C4 as stated: when the error message carried by the body is the empty
string, the text displayed is the fallback `An error occurred`, not the message. -/
theorem handleSubmit_error_response_empty_message :
    getProp (.obj [("error", .str "")]) "error" = some (.str "") ∧
    (handleSubmit (.response 0 false 0 (some (.obj [("error", .str "")])))
      (idleDocument "not a url")).state.errorText = "An error occurred" ∧
    (handleSubmit (.response 0 false 0 (some (.obj [("error", .str "")])))
      (idleDocument "not a url")).state.errorText ≠ "" := by
  refine ⟨rfl, ?_, ?_⟩ <;> decide

/-- C4, amended: after a valid submission answered by a non-success response whose `error` is
the non-empty string `e`, the error region is visible and shows `e` when `handleSubmit`
settles, the timer that hides it is pending with a delay of 5000 ms, and once that delay has
passed the error region is hidden. -/
theorem handleSubmit_error_response (wait bodyWait : Nat) (data : JSVal) (e : String)
    (st : URLShortener) (h : jsTrim st.urlInputValue ≠ "")
    (hdata : getProp data "error" = some (.str e)) (he : e ≠ "") :
    (handleSubmit (.response wait false bodyWait (some data)) st).isNormal = true ∧
    (handleSubmit (.response wait false bodyWait (some data)) st).state.errorText = e ∧
    (handleSubmit (.response wait false bodyWait (some data)) st).state.errorHidden = false ∧
    (⟨(handleSubmit (.response wait false bodyWait (some data)) st).state.now + 5000,
        .hideError⟩ : Timer) ∈
      (handleSubmit (.response wait false bodyWait (some data)) st).state.timers ∧
    ∀ dt, 5000 ≤ dt →
      (advance dt (handleSubmit (.response wait false bodyWait (some data)) st).state).errorHidden
        = true := by
  have ht : truthy (.str e) = true := by simp [truthy, he]
  refine ⟨?_, ?_, ?_, ?_, ?_⟩
  · simp [handleSubmit, h, submitTry, submitSettled, hdata, jsOr, ht, showError_str,
      tryCatch, tryFinally, Completion.isNormal]
  · simp [handleSubmit, h, submitTry, submitSettled, hdata, jsOr, ht, showError_str,
      tryCatch, tryFinally, Completion.state, hideLoading]
  · simp [handleSubmit, h, submitTry, submitSettled, hdata, jsOr, ht, showError_str,
      tryCatch, tryFinally, Completion.state, hideLoading]
  · simp [handleSubmit, h, submitTry, submitSettled, hdata, jsOr, ht, showError_str,
      tryCatch, tryFinally, Completion.state, hideLoading, errorDelay]
  · intro dt hdt
    simp [handleSubmit, h, submitTry, submitSettled, hdata, jsOr, ht, showError_str,
      tryCatch, tryFinally, Completion.state, hideLoading, errorDelay, advance_eq,
      List.filter_append]
    intro _
    exact hdt

/-- Witness of C4: the response `{error: "bad url"}` to a submission from an idle page. -/
theorem handleSubmit_error_response_witness :
    (handleSubmit (.response 40 false 2 (some (.obj [("error", .str "bad url")])))
      (idleDocument "not a url")).state.errorText = "bad url" ∧
    (advance 5000 (handleSubmit (.response 40 false 2 (some (.obj [("error", .str "bad url")])))
      (idleDocument "not a url")).state).errorHidden = true :=
  have h := handleSubmit_error_response 40 2 (.obj [("error", .str "bad url")]) "bad url"
    (idleDocument "not a url") (by decide) (by rfl) (by decide)
  ⟨h.2.1, h.2.2.2.2 5000 (Nat.le_refl _)⟩

/-- C5: when the request of a valid submission fails at transport level (`fetch` rejects, or
the body cannot be read), `handleSubmit` completes normally, the error region is visible and
its text is the fixed message `Network error. Please try again.`, which is not empty. -/
theorem handleSubmit_transport_failure (o : FetchOutcome) (st : URLShortener)
    (h : jsTrim st.urlInputValue ≠ "") (ho : o.transportFailure = true) :
    (handleSubmit o st).isNormal = true ∧
    (handleSubmit o st).state.errorHidden = false ∧
    (handleSubmit o st).state.errorText = "Network error. Please try again." ∧
    (handleSubmit o st).state.errorText ≠ "" := by
  have key : (handleSubmit o st).isNormal = true ∧
      (handleSubmit o st).state.errorHidden = false ∧
      (handleSubmit o st).state.errorText = "Network error. Please try again." := by
    cases o with
    | rejected wait =>
      simp [handleSubmit, h, submitTry, tryCatch, tryFinally, submitCatch_eq,
        Completion.isNormal, Completion.state, hideLoading]
    | response wait ok bodyWait body =>
      cases body with
      | none =>
        simp [handleSubmit, h, submitTry, submitSettled, tryCatch, tryFinally, submitCatch_eq,
          Completion.isNormal, Completion.state, hideLoading]
      | some data => simp [FetchOutcome.transportFailure] at ho
  refine ⟨key.1, key.2.1, key.2.2, ?_⟩
  rw [key.2.2]
  decide

/-- Witness of C5: a rejected `fetch`, and a success response whose body cannot be read. -/
theorem handleSubmit_transport_failure_witness :
    (handleSubmit (.rejected 30) (idleDocument "https://example.com/long")).state.errorText
      = "Network error. Please try again." ∧
    (handleSubmit (.response 30 true 1 none)
      (idleDocument "https://example.com/long")).state.errorHidden = false :=
  ⟨(handleSubmit_transport_failure (.rejected 30) (idleDocument "https://example.com/long")
      (by decide) (by rfl)).2.2.1,
    (handleSubmit_transport_failure (.response 30 true 1 none)
      (idleDocument "https://example.com/long") (by decide) (by rfl)).2.1⟩

/-- C6: a valid submission made while no other is suspended enters the loading state
(indicator visible, submit button disabled) in its prologue, before the request leaves; the
request then leaves and the handler is suspended with the loading state on.  Whatever happens
next (timers, edits, calls and answers of `showStats`, answers to the request), the form being
submitted only while its button is enabled, the loading state is on as long as the handler
is suspended and off once it has ended.  Every way `handleSubmit` ends (rejected `fetch`,
unreadable body, body of a success or of a non-success response) leaves the indicator hidden
and the button enabled. -/
theorem handleSubmit_loading (localeDate : JSVal → String) (st : URLShortener)
    (mid : List Op) (h : jsTrim st.urlInputValue ≠ "") (hidle : submitsInFlight st = 0)
    (hmid : submitsWhenEnabled localeDate (step localeDate st .submit) mid = true) :
    ((submitPrologue st).loadingHidden = false ∧ (submitPrologue st).shortenBtnDisabled = true ∧
      (submitPrologue st).requests = st.requests) ∧
    step localeDate st .submit =
      { fetch (shortenRequest (jsTrim st.urlInputValue)) (submitPrologue st) with
        pending := st.pending ++ [.submitFetch] } ∧
    ((step localeDate st .submit).requests =
        st.requests ++ [shortenRequest (jsTrim st.urlInputValue)] ∧
      (step localeDate st .submit).loadingHidden = false ∧
      (step localeDate st .submit).shortenBtnDisabled = true ∧
      submitsInFlight (step localeDate st .submit) = 1) ∧
    (submitsInFlight (run localeDate (step localeDate st .submit) mid) ≠ 0 →
      (run localeDate (step localeDate st .submit) mid).loadingHidden = false ∧
      (run localeDate (step localeDate st .submit) mid).shortenBtnDisabled = true) ∧
    (submitsInFlight (run localeDate (step localeDate st .submit) mid) = 0 →
      (run localeDate (step localeDate st .submit) mid).loadingHidden = true ∧
      (run localeDate (step localeDate st .submit) mid).shortenBtnDisabled = false) ∧
    (∀ (st1 : URLShortener) (i : Nat), st1.pending[i]? = some .submitFetch →
      (step localeDate st1 (.settle i .failure)).loadingHidden = true ∧
      (step localeDate st1 (.settle i .failure)).shortenBtnDisabled = false) ∧
    (∀ (st1 : URLShortener) (i : Nat) (ok : Bool), st1.pending[i]? = some (.submitBody ok) →
      (step localeDate st1 (.settle i .failure)).loadingHidden = true ∧
      (step localeDate st1 (.settle i .failure)).shortenBtnDisabled = false) ∧
    (∀ (st1 : URLShortener) (i : Nat) (ok : Bool) (data : JSVal),
      st1.pending[i]? = some (.submitBody ok) →
      (step localeDate st1 (.settle i (.body data))).loadingHidden = true ∧
      (step localeDate st1 (.settle i (.body data))).shortenBtnDisabled = false) := by
  have hbegin : step localeDate st .submit =
      { fetch (shortenRequest (jsTrim st.urlInputValue)) (submitPrologue st) with
        pending := st.pending ++ [.submitFetch] } := submitBegin_valid st h
  have hcount : List.countP Task.isSubmit st.pending = 0 := hidle
  have hone : submitsInFlight (step localeDate st .submit) = 1 := by
    rw [hbegin]
    simp [submitsInFlight, List.countP_append, Task.isSubmit, hcount]
  have hstart : LoadingTracksSubmission (step localeDate st .submit) := by
    refine ⟨by rw [hone], fun _ => ?_, fun h0 => ?_⟩
    · rw [hbegin]; exact ⟨rfl, rfl⟩
    · rw [hone] at h0; exact absurd h0 (by decide)
  have hrun := run_loading_tracks localeDate mid _ hmid hstart
  refine ⟨?_, hbegin, ⟨?_, ?_, ?_, hone⟩, hrun.2.1, hrun.2.2, ?_, ?_, ?_⟩
  · simp [submitPrologue, hideStats, hideResult, hideError, showLoading]
  · rw [hbegin]; simp [fetch, submitPrologue, hideStats, hideResult, hideError, showLoading]
  · rw [hbegin]; rfl
  · rw [hbegin]; rfl
  · intro st1 i ht
    have hr : step localeDate st1 (.settle i .failure) =
        submitEnd (.throw { st1 with pending := st1.pending.eraseIdx i }) := by
      simp [step, resume, ht]
    rw [hr]
    exact ⟨(submitEnd_frame _).2.2.1, (submitEnd_frame _).2.2.2⟩
  · intro st1 i ok ht
    have hr : step localeDate st1 (.settle i .failure) =
        submitEnd (.throw { st1 with pending := st1.pending.eraseIdx i }) := by
      simp [step, resume, ht]
    rw [hr]
    exact ⟨(submitEnd_frame _).2.2.1, (submitEnd_frame _).2.2.2⟩
  · intro st1 i ok data ht
    have hr : step localeDate st1 (.settle i (.body data)) =
        submitEnd (submitSettled ok (some data)
          { st1 with pending := st1.pending.eraseIdx i }) := by
      simp [step, resume, ht]
    rw [hr]
    exact ⟨(submitEnd_frame _).2.2.1, (submitEnd_frame _).2.2.2⟩

/-- Witness of C6: a submission from an idle page, seen while it waits for the body of the
response and after the body has arrived. -/
theorem handleSubmit_loading_witness :
    (run (fun _ => "")
      (step (fun _ => "") (constructor (idleDocument "https://example.com/long")) .submit)
      [.wait 30, .settle 0 (.response true), .wait 1]).loadingHidden = false ∧
    (run (fun _ => "")
      (step (fun _ => "") (constructor (idleDocument "https://example.com/long")) .submit)
      [.wait 30, .settle 0 (.response true), .wait 1,
       .settle 0 (.body (.obj [("short_url", .str "https://x/abc")]))]).loadingHidden = true ∧
    (run (fun _ => "")
      (step (fun _ => "") (constructor (idleDocument "https://example.com/long")) .submit)
      [.wait 30, .settle 0 (.response true), .wait 1,
       .settle 0 (.body (.obj [("short_url", .str "https://x/abc")]))]).shortenBtnDisabled
      = false :=
  have h1 := handleSubmit_loading (fun _ => "")
    (constructor (idleDocument "https://example.com/long"))
    [.wait 30, .settle 0 (.response true), .wait 1] (by decide) (by decide) (by decide)
  have h2 := handleSubmit_loading (fun _ => "")
    (constructor (idleDocument "https://example.com/long"))
    [.wait 30, .settle 0 (.response true), .wait 1,
     .settle 0 (.body (.obj [("short_url", .str "https://x/abc")]))]
    (by decide) (by decide) (by decide)
  ⟨(h1.2.2.2.1 (by decide)).1, (h2.2.2.2.2.1 (by decide)).1, (h2.2.2.2.2.1 (by decide)).2⟩

/-- C7: when the current short URL is a string `s` that contains `/`, `showStats` issues
exactly one request, a `GET` to `/stats/` followed by `code`, where `code` is what follows the
last `/` of `s`: `s` is `pre/code`, `code` contains no `/`, and no suffix of `s` free of `/` is
longer.  For `https://x/AbC123` the code is `AbC123`. -/
theorem showStats_requests_last_segment (localeDate : JSVal → String) (o : FetchOutcome)
    (st : URLShortener) (s : String) (hcur : st.currentShortUrl = .str s)
    (hs : '/' ∈ s.data) :
    (∃ pre code : String,
      s = pre ++ "/" ++ code ∧ '/' ∉ code.data ∧
      (∀ t : String, t.data <:+ s.data → '/' ∉ t.data → t.length ≤ code.length) ∧
      (showStats localeDate o st).state.requests =
        st.requests ++
          [{ method := "GET", url := "/stats/" ++ code, headers := [], body := none }]) ∧
    jsPop (jsSplit "https://x/AbC123" '/') = .str "AbC123" := by
  refine ⟨?_, by rfl⟩
  obtain ⟨pre, code, hpop, hsplit, hcode⟩ := jsPop_jsSplit s '/' hs
  have hdata : s.data = pre.data ++ '/' :: code.data := by
    have := congrArg String.data hsplit
    simpa [String.singleton] using this
  refine ⟨pre, code, hsplit, hcode, ?_, ?_⟩
  · intro t ht hfree
    by_contra hlt
    have hlt1 : code.data.length < t.data.length := Nat.lt_of_not_le hlt
    have hdrop := List.suffix_iff_eq_drop.mp ht
    have hlen : s.data.length = pre.data.length + (code.data.length + 1) := by
      rw [hdata]; simp
    have hk : s.data.length - t.data.length ≤ pre.data.length := by omega
    rw [hdata, List.drop_append_of_le_length (by rw [← hdata]; exact hk)] at hdrop
    apply hfree
    rw [hdrop]
    simp
  · have htruthy : truthy (.str s) = true := by
      have hne : s ≠ "" := by
        intro e
        rw [e] at hs
        exact List.not_mem_nil _ hs
      simp [truthy, hne]
    simp only [showStats, hcur, htruthy, Bool.not_true, Bool.false_eq_true, if_false]
    rw [statsBlock_requests localeDate o st s hcur, hpop]
    rfl

/-- Witness of C7: the current short URL `https://x/AbC123`, the statistics request being
rejected. -/
theorem showStats_requests_last_segment_witness :
    (∃ pre code : String,
      "https://x/AbC123" = pre ++ "/" ++ code ∧ '/' ∉ code.data ∧
      (∀ t : String, t.data <:+ "https://x/AbC123".data → '/' ∉ t.data →
        t.length ≤ code.length) ∧
      (showStats (fun _ => "") (.rejected 0)
        { idleDocument "" with currentShortUrl := .str "https://x/AbC123" }).state.requests =
        ({ idleDocument "" with currentShortUrl := .str "https://x/AbC123" }).requests ++
          [{ method := "GET", url := "/stats/" ++ code, headers := [], body := none }]) ∧
    jsPop (jsSplit "https://x/AbC123" '/') = .str "AbC123" :=
  showStats_requests_last_segment (fun _ => "") (.rejected 0)
    { idleDocument "" with currentShortUrl := .str "https://x/AbC123" } "https://x/AbC123"
    rfl (by decide)

/-- Counterexample to C8 as stated: when `fetch` rejects, the message displayed is
`Error loading statistics`, not the message of a non-success response. -/
theorem showStats_rejected_message :
    (showStats (fun _ => "") (.rejected 0)
      { idleDocument "" with currentShortUrl := .str "https://x/abc" }).state.errorText
        = "Error loading statistics" ∧
    (showStats (fun _ => "") (.rejected 0)
      { idleDocument "" with currentShortUrl := .str "https://x/abc" }).state.errorText
        ≠ "Unable to load statistics" ∧
    (showStats (fun _ => "") (.rejected 0)
      { idleDocument "" with currentShortUrl := .str "https://x/abc" }).state.errorText
        ≠ "unable to load statistics" := by
  refine ⟨?_, ?_, ?_⟩ <;> decide

/-- C8, amended: when the statistics of a stored short URL cannot be read, `showStats`
completes normally and shows an error, `Unable to load statistics` for a non-success response
and `Error loading statistics` when `fetch` rejects or the body cannot be read; the click
count, the creation date and the visibility of the statistics region are left as they
were. -/
theorem showStats_failure (localeDate : JSVal → String) (o : FetchOutcome)
    (st : URLShortener) (s : String) (hcur : st.currentShortUrl = .str s) (hs : s ≠ "")
    (ho : o.statsReadFailed = true) :
    (showStats localeDate o st).isNormal = true ∧
    (showStats localeDate o st).state.errorHidden = false ∧
    (showStats localeDate o st).state.errorText =
      (if o.nonSuccess = true then "Unable to load statistics"
       else "Error loading statistics") ∧
    (showStats localeDate o st).state.clickCountText = st.clickCountText ∧
    (showStats localeDate o st).state.createdDateText = st.createdDateText ∧
    (showStats localeDate o st).state.statsHidden = st.statsHidden := by
  have htruthy : truthy (.str s) = true := by simp [truthy, hs]
  cases o with
  | rejected wait =>
    simp [showStats, hcur, htruthy, statsTry, tryCatch, statsCatch_eq, Completion.isNormal,
      Completion.state, advance_eq, fetch, FetchOutcome.nonSuccess]
  | response wait ok bodyWait body =>
    cases ok with
    | false =>
      simp [showStats, hcur, htruthy, statsTry, tryCatch, showError_str, Completion.isNormal,
        Completion.state, advance_eq, fetch, FetchOutcome.nonSuccess]
    | true =>
      cases body with
      | none =>
        simp [showStats, hcur, htruthy, statsTry, statsSettled, tryCatch, statsCatch_eq,
          Completion.isNormal, Completion.state, advance_eq, fetch, FetchOutcome.nonSuccess]
      | some data => simp [FetchOutcome.statsReadFailed] at ho

/-- Witness of C8: a non-success response while statistics are on display. -/
theorem showStats_failure_witness :
    (showStats (fun _ => "") (.response 10 false 0 none)
      { idleDocument "" with
        currentShortUrl := .str "https://x/abc", statsHidden := false,
        clickCountText := "7", createdDateText := "1/2/2024" }).state.errorText
        = "Unable to load statistics" ∧
    (showStats (fun _ => "") (.response 10 false 0 none)
      { idleDocument "" with
        currentShortUrl := .str "https://x/abc", statsHidden := false,
        clickCountText := "7", createdDateText := "1/2/2024" }).state.clickCountText = "7" ∧
    (showStats (fun _ => "") (.response 10 false 0 none)
      { idleDocument "" with
        currentShortUrl := .str "https://x/abc", statsHidden := false,
        clickCountText := "7", createdDateText := "1/2/2024" }).state.statsHidden = false :=
  have h := showStats_failure (fun _ => "") (.response 10 false 0 none)
    { idleDocument "" with
      currentShortUrl := .str "https://x/abc", statsHidden := false,
      clickCountText := "7", createdDateText := "1/2/2024" }
    "https://x/abc" rfl (by decide) (by rfl)
  ⟨h.2.2.1, h.2.2.2.1, h.2.2.2.2.2⟩

/-- C9: when the current short URL is the empty string, as the constructor leaves it,
`showStats` returns at once: the whole state, request log included, is unchanged, so no request
leaves and no region changes its visibility. -/
theorem showStats_without_result (localeDate : JSVal → String) (o : FetchOutcome)
    (st : URLShortener) (h : st.currentShortUrl = .str "") :
    showStats localeDate o st = .normal st ∧
    (showStats localeDate o st).state.requests = st.requests ∧
    (showStats localeDate o st).state.statsHidden = st.statsHidden ∧
    (showStats localeDate o st).state.errorHidden = st.errorHidden ∧
    (showStats localeDate o st).state.resultHidden = st.resultHidden := by
  have heq : showStats localeDate o st = .normal st := by
    simp [showStats, h, truthy]
  refine ⟨heq, ?_, ?_, ?_, ?_⟩ <;> rw [heq] <;> rfl

/-- Witness of C9: the freshly constructed controller on an idle page. -/
theorem showStats_without_result_witness :
    (constructor (idleDocument "")).currentShortUrl = .str "" ∧
    showStats (fun _ => "") (.response 0 true 0 (some (.obj [("click_count", .num "1")])))
        (constructor (idleDocument "")) = .normal (constructor (idleDocument "")) ∧
    (showStats (fun _ => "") (.response 0 true 0 (some (.obj [("click_count", .num "1")])))
        (constructor (idleDocument ""))).state.requests = [] :=
  have h := showStats_without_result (fun _ => "")
    (.response 0 true 0 (some (.obj [("click_count", .num "1")])))
    (constructor (idleDocument "")) rfl
  ⟨rfl, h.1, h.2.1⟩

/-- Counterexample to C10 as stated.  First run: after a successful submission, a submission
that fails hides the result region and keeps the stored short URL, so that `showStats` then
shows the statistics region while the result region is hidden.  Second run: the statistics
are asked for while the result is visible and arrive after a later submission has failed.
Third run: a submission with blank input leaves a visible statistics region visible. -/
theorem stats_visible_without_result_region :
    (run (fun _ => "1/2/2024") (constructor (idleDocument "https://example.com/long"))
      [.submit, .settle 0 (.response true),
       .settle 0 (.body (.obj [("short_url", .str "https://x/abc")])),
       .submit, .settle 0 .failure,
       .stats, .settle 0 (.response true),
       .settle 0 (.body (.obj [("click_count", .num "3"),
         ("created_at", .str "2024-01-02")]))]).statsHidden = false ∧
    (run (fun _ => "1/2/2024") (constructor (idleDocument "https://example.com/long"))
      [.submit, .settle 0 (.response true),
       .settle 0 (.body (.obj [("short_url", .str "https://x/abc")])),
       .submit, .settle 0 .failure,
       .stats, .settle 0 (.response true),
       .settle 0 (.body (.obj [("click_count", .num "3"),
         ("created_at", .str "2024-01-02")]))]).resultHidden = true ∧
    (run (fun _ => "1/2/2024") (constructor (idleDocument "https://example.com/long"))
      [.submit, .settle 0 (.response true),
       .settle 0 (.body (.obj [("short_url", .str "https://x/abc")])),
       .stats, .submit, .settle 1 .failure,
       .settle 0 (.response true),
       .settle 0 (.body (.obj [("click_count", .num "3"),
         ("created_at", .str "2024-01-02")]))]).statsHidden = false ∧
    (run (fun _ => "1/2/2024") (constructor (idleDocument "https://example.com/long"))
      [.submit, .settle 0 (.response true),
       .settle 0 (.body (.obj [("short_url", .str "https://x/abc")])),
       .stats, .submit, .settle 1 .failure,
       .settle 0 (.response true),
       .settle 0 (.body (.obj [("click_count", .num "3"),
         ("created_at", .str "2024-01-02")]))]).resultHidden = true ∧
    (run (fun _ => "1/2/2024") (constructor (idleDocument "https://example.com/long"))
      [.submit, .settle 0 (.response true),
       .settle 0 (.body (.obj [("short_url", .str "https://x/abc")])),
       .stats, .settle 0 (.response true),
       .settle 0 (.body (.obj [("click_count", .num "3"), ("created_at", .str "2024-01-02")])),
       .typeInput "  ", .submit]).statsHidden = false := by
  refine ⟨?_, ?_, ?_, ?_, ?_⟩ <;> decide

/-- C10, amended: take any sequence of operations (edits of the URL field, submissions, calls
of `showStats`, answers to pending requests, lapses of time) from a freshly constructed
controller whose statistics region starts hidden, in which submissions and reads of the
statistics do not overlap: no submission with a non-blank input starts while a call of
`showStats` is suspended, and `showStats` is called only while the result region is visible
and no submission is suspended.  In the state reached, the statistics region is visible only
while the result region is visible and a non-empty short URL is stored.  From that state, a
submission whose trimmed input is not empty, started while no call of `showStats` is
suspended, leaves the statistics region hidden, and it stays hidden under every sequence of
operations without a call of `showStats`; a submission whose trimmed input is empty leaves
the region as it was. -/
theorem stats_visible_only_within_result (localeDate : JSVal → String)
    (document : URLShortener) (ops : List Op) (hdoc : document.statsHidden = true)
    (hapart : handlersApart localeDate (constructor document) ops = true) :
    ((run localeDate (constructor document) ops).statsHidden = false →
      (run localeDate (constructor document) ops).resultHidden = false ∧
      ∃ s : String,
        (run localeDate (constructor document) ops).currentShortUrl = .str s ∧ s ≠ "") ∧
    (jsTrim (run localeDate (constructor document) ops).urlInputValue ≠ "" →
      statsInFlight (run localeDate (constructor document) ops) = 0 →
      (step localeDate (run localeDate (constructor document) ops) .submit).statsHidden = true ∧
      ∀ more : List Op, (∀ op ∈ more, op.isStats = false) →
        (run localeDate (step localeDate (run localeDate (constructor document) ops) .submit)
          more).statsHidden = true) ∧
    (jsTrim (run localeDate (constructor document) ops).urlInputValue = "" →
      (step localeDate (run localeDate (constructor document) ops) .submit).statsHidden =
        (run localeDate (constructor document) ops).statsHidden) := by
  have hinit : StatsWithinResult (constructor document) := by
    intro hprem
    rcases hprem with h | h
    · have hh : (constructor document).statsHidden = true := hdoc
      rw [hh] at h
      exact absurd h (by decide)
    · exact absurd rfl h
  have hinv := run_stats_within_result localeDate ops _ hapart hinit
  refine ⟨fun hvis => ?_, fun hvalid hq => ?_, fun hblank => ?_⟩
  · have := hinv (Or.inl hvis)
    exact ⟨this.1, this.2.2⟩
  · have hbegin := submitBegin_stats_quiet _ hvalid hq
    exact ⟨hbegin.1, fun more hmore =>
      (run_stats_quiet localeDate more _ hmore hbegin.1 hbegin.2).1⟩
  · simp only [step]
    rw [submitBegin_blank _ hblank]

/-- Witness of C10: an idle page, a successful submission, then the statistics. -/
theorem stats_visible_only_within_result_witness :
    (run (fun _ => "1/2/2024") (constructor (idleDocument "https://example.com/long"))
      [.submit, .settle 0 (.response true),
       .settle 0 (.body (.obj [("short_url", .str "https://x/abc")])),
       .stats, .settle 0 (.response true),
       .settle 0 (.body (.obj [("click_count", .num "3"),
         ("created_at", .str "2024-01-02")]))]).statsHidden = false ∧
    (run (fun _ => "1/2/2024") (constructor (idleDocument "https://example.com/long"))
      [.submit, .settle 0 (.response true),
       .settle 0 (.body (.obj [("short_url", .str "https://x/abc")])),
       .stats, .settle 0 (.response true),
       .settle 0 (.body (.obj [("click_count", .num "3"),
         ("created_at", .str "2024-01-02")]))]).resultHidden = false :=
  ⟨by decide,
    ((stats_visible_only_within_result (fun _ => "1/2/2024")
      (idleDocument "https://example.com/long")
      [.submit, .settle 0 (.response true),
       .settle 0 (.body (.obj [("short_url", .str "https://x/abc")])),
       .stats, .settle 0 (.response true),
       .settle 0 (.body (.obj [("click_count", .num "3"), ("created_at", .str "2024-01-02")]))]
      rfl (by decide)).1 (by decide)).1⟩

end URLShortener

end UrlShortener
